import Mathlib

/-!
# Preferences: scope resolution, writers and the group tree

A shallow embedding of `pkg/query-service/app/preferences/model.go`.

* The package-level handle `db` becomes an explicit database state `DB` that
  is passed to every function; a function that writes returns the new state
  next to its result.
* A Go result pair `(*T, *model.ApiError)` of which exactly one side is
  non-nil becomes `Except ApiError T`.
* A Go slice that the code compares with `nil` is an `Option (List α)`:
  `none` is the nil slice, `some []` the empty non-nil slice.
* A Go `map[string]V` is an association list read with `GoMap.get`.
* `buildGroupTree` is recursive on data (the parent relation of the groups),
  so its embedding carries a recursion-depth budget and answers `none` when
  the budget is used up. The two listings that call it carry the same budget.
* `InitDB` takes the bootstrap files as read and decoded, and the error of
  `sqlx.Open`, as arguments.
-/

namespace PrefModel

/-! ## Data model (model.go, lines 18-54) -/

/-- Row of table `preference`; Go struct `Preference`. -/
structure Preference where
  Id : String
  Name : String
  DefaultValue : String
  DependsOn : String
  UserScope : Int
  OrgScope : Int
  GroupId : String
deriving DecidableEq, Repr

/-- Row of table `preference_group`; Go struct `PreferenceGroup`. -/
structure PreferenceGroup where
  Id : String
  Name : String
  ParentGroup : String
deriving DecidableEq, Repr

/-- Go struct `PreferenceKV`. -/
structure PreferenceKV where
  PreferenceId : String
  PreferenceValue : String
deriving DecidableEq, Repr

/-- Go struct `UpdateOrgPreferenceRequest`. -/
structure UpdateOrgPreferenceRequest where
  PreferenceId : String
  PreferenceValue : String
deriving DecidableEq, Repr

/-- Go struct `Preferences`: an embedded `Preference` and the resolved value. -/
structure Preferences extends Preference where
  Value : String
deriving DecidableEq, Repr

/-- Go struct `AllPreferenceResponse`, a node of the group tree. The field
`Preferences` is a slice the code tests against nil. -/
inductive AllPreferenceResponse where
  | mk (GroupId : String) (GroupName : String)
      (Preferences : Option (List Preferences))
      (ChildGroup : List AllPreferenceResponse)

namespace AllPreferenceResponse

def GroupId : AllPreferenceResponse → String
  | mk i _ _ _ => i

def GroupName : AllPreferenceResponse → String
  | mk _ n _ _ => n

def Preferences : AllPreferenceResponse → Option (List PrefModel.Preferences)
  | mk _ _ p _ => p

def ChildGroup : AllPreferenceResponse → List AllPreferenceResponse
  | mk _ _ _ c => c

end AllPreferenceResponse

/-- Row of table `user_preference`, primary key `(preference_id, user_id)`. -/
structure UserPreferenceRow where
  preference_id : String
  preference_value : String
  user_id : String
deriving DecidableEq, Repr

/-- Row of table `org_preference`, primary key `(preference_id, org_id)`. -/
structure OrgPreferenceRow where
  preference_id : String
  preference_value : String
  org_id : String
deriving DecidableEq, Repr

/-- Modelled from the spec: the error kinds of `model.ApiError` (package
`pkg/query-service/model`): `NotFound`, `Forbidden` and `ExecutionError`. -/
inductive ErrorType where
  | ErrorNotFound
  | ErrorForbidden
  | ErrorExec
deriving DecidableEq, Repr

/-- Modelled from the spec: `model.ApiError`, a classification and a cause. -/
structure ApiError where
  Typ : ErrorType
  Err : String
deriving DecidableEq, Repr

/-- Modelled from the spec: the caller identity that
`common.GetUserFromContext` extracts from the request context, of which the
code reads the user id and the organization id. -/
structure User where
  Id : String
  OrgId : String
deriving DecidableEq, Repr

/-- The zero value `PreferenceKV{}`. -/
def PreferenceKV.zero : PreferenceKV := ⟨"", ""⟩

/-- The zero value `Preference{}`. -/
def Preference.zero : Preference := ⟨"", "", "", "", 0, 0, ""⟩

/-- Columns `user, org, default_value` of a `preference` row. -/
def colsUserOrgDefault (d : Preference) : Preference :=
  { Preference.zero with
    UserScope := d.UserScope, OrgScope := d.OrgScope, DefaultValue := d.DefaultValue }

/-- Columns `org, default_value` of a `preference` row. -/
def colsOrgDefault (d : Preference) : Preference :=
  { Preference.zero with OrgScope := d.OrgScope, DefaultValue := d.DefaultValue }

/-- Column `user` of a `preference` row. -/
def colsUser (d : Preference) : Preference :=
  { Preference.zero with UserScope := d.UserScope }

/-- Column `org` of a `preference` row. -/
def colsOrg (d : Preference) : Preference :=
  { Preference.zero with OrgScope := d.OrgScope }

/-! ## Database state -/

/-- The SQL statements the package sends, one name per table and direction. -/
inductive Stmt where
  | selectPreferenceGroup
  | insertPreferenceGroup
  | selectPreference
  | insertPreference
  | selectUserPreference
  | upsertUserPreference
  | selectOrgPreference
  | upsertOrgPreference
  | createPreferenceGroupTable
  | createPreferenceTable
  | createUserPreferenceTable
  | createOrgPreferenceTable
deriving DecidableEq, Repr

/-- The four tables, and the statements on which the storage engine answers
with a failure other than `sql.ErrNoRows`. -/
structure DB where
  preference_group : List PreferenceGroup
  preference : List Preference
  user_preference : List UserPreferenceRow
  org_preference : List OrgPreferenceRow
  failing : List Stmt
deriving DecidableEq, Repr

/-- The message of a storage failure. -/
def driverErr : String := "database failure"

/-- Outcome of `db.Get`: the scanned first row, `sql.ErrNoRows`, or another
error. -/
inductive GetResult (α : Type) where
  | row (a : α)
  | ErrNoRows
  | failure (msg : String)
deriving DecidableEq, Repr

namespace DB

/-- Whether the engine fails statement `st`. -/
def fails (db : DB) (st : Stmt) : Bool := db.failing.elem st

/-- The call `db.Get(&dest, query, args...)` for a `SELECT cols FROM t WHERE
cond`: the first row of `rows` that satisfies `cond`, projected on the
selected columns. -/
def get {ρ α : Type} (db : DB) (st : Stmt) (rows : List ρ) (cond : ρ → Bool)
    (cols : ρ → α) : GetResult α :=
  if db.fails st then GetResult.failure driverErr
  else match rows.find? cond with
    | some r => GetResult.row (cols r)
    | none => GetResult.ErrNoRows

/-- Query `SELECT preference_id, preference_value FROM user_preference WHERE
preference_id = $1 AND user_id = $2`, scanned into a `PreferenceKV`. -/
def getUserPreferenceKV (db : DB) (preferenceId userId : String) : GetResult PreferenceKV :=
  db.get Stmt.selectUserPreference db.user_preference
    (fun r => decide (r.preference_id = preferenceId ∧ r.user_id = userId))
    (fun r => PreferenceKV.mk r.preference_id r.preference_value)

/-- Query `SELECT preference_id, preference_value FROM org_preference WHERE
preference_id = $1 AND org_id = $2`, scanned into a `PreferenceKV`. -/
def getOrgPreferenceKV (db : DB) (preferenceId orgId : String) : GetResult PreferenceKV :=
  db.get Stmt.selectOrgPreference db.org_preference
    (fun r => decide (r.preference_id = preferenceId ∧ r.org_id = orgId))
    (fun r => PreferenceKV.mk r.preference_id r.preference_value)

/-- Query `SELECT cols FROM preference WHERE id = $1`, scanned into a
`Preference` of which only the selected columns are filled. -/
def getPreference (db : DB) (cols : Preference → Preference) (id : String) :
    GetResult Preference :=
  db.get Stmt.selectPreference db.preference (fun d => decide (d.Id = id)) cols

/-- Primary keys of the schema: `preference_group(id)`, `preference(id)`,
`user_preference(preference_id, user_id)`,
`org_preference(preference_id, org_id)`. -/
def WellFormed (db : DB) : Prop :=
  (db.preference_group.map (fun g => g.Id)).Nodup ∧
  (db.preference.map (fun p => p.Id)).Nodup ∧
  (db.user_preference.map (fun r => (r.preference_id, r.user_id))).Nodup ∧
  (db.org_preference.map (fun r => (r.preference_id, r.org_id))).Nodup

instance (db : DB) : Decidable db.WellFormed := by
  unfold WellFormed; infer_instance

/-- None of the three reads of the resolvers fails. -/
def ReadsSucceed (db : DB) : Prop :=
  db.fails Stmt.selectUserPreference = false ∧
  db.fails Stmt.selectOrgPreference = false ∧
  db.fails Stmt.selectPreference = false

instance (db : DB) : Decidable db.ReadsSucceed := by
  unfold ReadsSucceed; infer_instance

end DB

/-- The destination of a `db.Get` after the call: overwritten by the scanned
row, left as it was when no row is returned. -/
def GetResult.scanInto {α : Type} (dest : α) : GetResult α → α
  | GetResult.row a => a
  | _ => dest

/-! ## Scope resolver (model.go, lines 216-267 and 310-346) -/

/-- Function `GetUserPreference`. -/
def GetUserPreference (db : DB) (user : User) (preferenceId : String) :
    Except ApiError PreferenceKV :=
  let orgId := user.OrgId
  let r1 := db.getUserPreferenceKV preferenceId user.Id
  match r1 with
  | GetResult.failure err => Except.error ⟨ErrorType.ErrorExec, err⟩
  | _ =>
  let userPreference := r1.scanInto PreferenceKV.zero
  let r2 := db.getOrgPreferenceKV preferenceId orgId
  match r2 with
  | GetResult.failure err => Except.error ⟨ErrorType.ErrorExec, err⟩
  | _ =>
  let orgPreference := r2.scanInto PreferenceKV.zero
  let r3 := db.getPreference colsUserOrgDefault preferenceId
  match r3 with
  | GetResult.ErrNoRows =>
    Except.error ⟨ErrorType.ErrorNotFound,
      "no preference found with preference Id: " ++ preferenceId⟩
  | GetResult.failure err =>
    Except.error ⟨ErrorType.ErrorExec,
      "error while fetching the preference entity: " ++ err⟩
  | GetResult.row preference =>
  if preference.UserScope ≠ 1 then
    Except.error ⟨ErrorType.ErrorForbidden,
      "preference not enabled for user scope with key: " ++ preferenceId⟩
  else
  let preferenceValue : PreferenceKV := ⟨preferenceId, preference.DefaultValue⟩
  let preferenceValue : PreferenceKV :=
    if preference.OrgScope = 1 ∧ orgPreference.PreferenceId ≠ "" then
      { preferenceValue with PreferenceValue := orgPreference.PreferenceValue }
    else preferenceValue
  let preferenceValue : PreferenceKV :=
    if userPreference.PreferenceId ≠ "" then
      { preferenceValue with PreferenceValue := userPreference.PreferenceValue }
    else preferenceValue
  Except.ok preferenceValue

/-- Function `GetOrgPreference`. -/
def GetOrgPreference (db : DB) (user : User) (preferenceId : String) :
    Except ApiError PreferenceKV :=
  let orgId := user.OrgId
  let r1 := db.getOrgPreferenceKV preferenceId orgId
  match r1 with
  | GetResult.failure err => Except.error ⟨ErrorType.ErrorExec, err⟩
  | _ =>
  let orgPreference := r1.scanInto PreferenceKV.zero
  let r2 := db.getPreference colsOrgDefault preferenceId
  match r2 with
  | GetResult.ErrNoRows =>
    Except.error ⟨ErrorType.ErrorNotFound,
      "no such preference exists: " ++ preferenceId⟩
  | GetResult.failure err =>
    Except.error ⟨ErrorType.ErrorExec,
      "error in fetching the preference: " ++ err⟩
  | GetResult.row preference =>
  if preference.OrgScope ≠ 1 then
    Except.error ⟨ErrorType.ErrorForbidden,
      "preference not enabled with key: " ++ preferenceId⟩
  else
  let preferenceValue : PreferenceKV := ⟨preferenceId, preference.DefaultValue⟩
  let preferenceValue : PreferenceKV :=
    if orgPreference.PreferenceId ≠ "" then
      { preferenceValue with PreferenceValue := orgPreference.PreferenceValue }
    else preferenceValue
  Except.ok preferenceValue

/-! ## Preference writer (model.go, lines 269-308 and 348-391) -/

namespace DB

/-- The call `db.Exec(query, args...)` of a writing statement whose effect on
the tables is `after`: the error it returns, and the new state. A statement
that fails changes no row. -/
def exec (db : DB) (st : Stmt) (after : DB) : Option String × DB :=
  if db.fails st then (some driverErr, db) else (none, after)

/-- The rows of `user_preference` after
`INSERT INTO user_preference(preference_id,preference_value,user_id)
VALUES($1,$2,$3) ON CONFLICT(preference_id,user_id) DO UPDATE SET
preference_value = $2 WHERE preference_id = $1 AND user_id = $3`. -/
def upsertUserRows (rows : List UserPreferenceRow)
    (preferenceId preferenceValue userId : String) : List UserPreferenceRow :=
  if rows.any (fun r => decide (r.preference_id = preferenceId ∧ r.user_id = userId)) then
    rows.map (fun r =>
      if r.preference_id = preferenceId ∧ r.user_id = userId then
        { r with preference_value := preferenceValue }
      else r)
  else rows ++ [⟨preferenceId, preferenceValue, userId⟩]

/-- The rows of `org_preference` after
`INSERT INTO org_preference(preference_id,preference_value,org_id)
VALUES($1,$2,$3) ON CONFLICT(preference_id,org_id) DO UPDATE SET
preference_value = $2 WHERE preference_id = $1 AND org_id = $3`. -/
def upsertOrgRows (rows : List OrgPreferenceRow)
    (preferenceId preferenceValue orgId : String) : List OrgPreferenceRow :=
  if rows.any (fun r => decide (r.preference_id = preferenceId ∧ r.org_id = orgId)) then
    rows.map (fun r =>
      if r.preference_id = preferenceId ∧ r.org_id = orgId then
        { r with preference_value := preferenceValue }
      else r)
  else rows ++ [⟨preferenceId, preferenceValue, orgId⟩]

end DB

/-- Function `UpdateUserPreference`: its result and the database after the
call. -/
def UpdateUserPreference (db : DB) (user : User) (req : PreferenceKV) :
    Except ApiError PreferenceKV × DB :=
  let preferenceId := req.PreferenceId
  let preferenceValue := req.PreferenceValue
  if preferenceId = "" then
    (Except.error ⟨ErrorType.ErrorNotFound, "no preference id found in the request"⟩, db)
  else
  let r := db.getPreference colsUser preferenceId
  match r with
  | GetResult.ErrNoRows =>
    (Except.error ⟨ErrorType.ErrorNotFound,
      "no such preference exists: " ++ preferenceId⟩, db)
  | GetResult.failure err =>
    (Except.error ⟨ErrorType.ErrorExec,
      "error in fetching the preference: " ++ err⟩, db)
  | GetResult.row preference =>
  if preference.UserScope ≠ 1 then
    (Except.error ⟨ErrorType.ErrorForbidden,
      "this preference is not enabled at user scope: " ++ preferenceId⟩, db)
  else
  match db.exec Stmt.upsertUserPreference
      { db with user_preference :=
          DB.upsertUserRows db.user_preference preferenceId preferenceValue user.Id } with
  | (some err, db1) =>
    (Except.error ⟨ErrorType.ErrorExec,
      "error in setting the preference value: " ++ err⟩, db1)
  | (none, db1) =>
    (Except.ok ⟨preferenceId, preferenceValue⟩, db1)

/-- Function `UpdateOrgPreference`: its result and the database after the
call. -/
def UpdateOrgPreference (db : DB) (user : User) (req : UpdateOrgPreferenceRequest) :
    Except ApiError PreferenceKV × DB :=
  let preferenceId := req.PreferenceId
  let preferenceValue := req.PreferenceValue
  let orgId := user.OrgId
  if preferenceId = "" then
    (Except.error ⟨ErrorType.ErrorNotFound, "no preference id found in the request"⟩, db)
  else
  if orgId = "" then
    (Except.error ⟨ErrorType.ErrorNotFound, "no org id found in the request"⟩, db)
  else
  let r := db.getPreference colsOrg preferenceId
  match r with
  | GetResult.ErrNoRows =>
    (Except.error ⟨ErrorType.ErrorNotFound,
      "no such preference exists: " ++ preferenceId⟩, db)
  | GetResult.failure err =>
    (Except.error ⟨ErrorType.ErrorExec,
      "error in fetching the preference: " ++ err⟩, db)
  | GetResult.row preference =>
  if preference.OrgScope ≠ 1 then
    (Except.error ⟨ErrorType.ErrorForbidden,
      "this preference is not enabled at org scope: " ++ preferenceId⟩, db)
  else
  match db.exec Stmt.upsertOrgPreference
      { db with org_preference :=
          DB.upsertOrgRows db.org_preference preferenceId preferenceValue orgId } with
  | (some err, db1) =>
    (Except.error ⟨ErrorType.ErrorExec,
      "error in setting the preference value: " ++ err⟩, db1)
  | (none, db1) =>
    (Except.ok ⟨preferenceId, preferenceValue⟩, db1)

/-! ## Tree builder (model.go, lines 584-608) -/

/-- A Go `map[string]V`, as the list of its entries. -/
abbrev GoMap (β : Type) := List (String × β)

/-- The map read `val, seen := m[key]`: `none` when the key is not seen. -/
def GoMap.get {β : Type} (m : GoMap β) (key : String) : Option β :=
  (m.find? (fun e => decide (e.1 = key))).map (fun e => e.2)

/-- The field `treeNode.Preferences` after
`if val, seen := groupPreferenceMap[group.Id]; seen { treeNode.Preferences = val }`:
the stored slice when the key is seen, the nil slice otherwise. -/
def nodePreferences (groupPreferenceMap : GoMap (Option (List Preferences)))
    (groupId : String) : Option (List Preferences) :=
  match groupPreferenceMap.get groupId with
  | some val => val
  | none => none

/-- The loop `for _, group := range groups` of `buildGroupTree`, on the groups
still to visit and the `tree` appended so far. The recursive call
`buildGroupTree(groups, group.Id, groupPreferenceMap)` is `recur group.Id`, and
the loop has no result when a recursive call has none. -/
def buildGroupTreeLoop (recur : String → Option (List AllPreferenceResponse))
    (parentID : String) (groupPreferenceMap : GoMap (Option (List Preferences))) :
    List PreferenceGroup → List AllPreferenceResponse → Option (List AllPreferenceResponse)
  | [], tree => some tree
  | group :: rest, tree =>
    if group.ParentGroup = parentID then
      match recur group.Id with
      | none => none
      | some children =>
        let treeNode := AllPreferenceResponse.mk group.Id group.Name
          (nodePreferences groupPreferenceMap group.Id) children
        if children.length = 0 ∧ treeNode.Preferences = none then
          buildGroupTreeLoop recur parentID groupPreferenceMap rest tree
        else
          buildGroupTreeLoop recur parentID groupPreferenceMap rest (tree ++ [treeNode])
    else
      buildGroupTreeLoop recur parentID groupPreferenceMap rest tree

/-- Function `buildGroupTree`. The first argument bounds the depth of the
recursion; the result is `none` when that depth is not enough, and the tree the
Go function returns otherwise. -/
def buildGroupTree : Nat → List PreferenceGroup → String →
    GoMap (Option (List Preferences)) → Option (List AllPreferenceResponse)
  | 0, _, _, _ => none
  | depth + 1, groups, parentID, groupPreferenceMap =>
    buildGroupTreeLoop (fun id => buildGroupTree depth groups id groupPreferenceMap)
      parentID groupPreferenceMap groups []

/-- One pass of the loop body of `buildGroupTree` for `group`, when the
recursive call on a group id `id` returns `kids id`: the node appended to the
tree, or `none` when the body appends nothing. -/
def keptNode (kids : String → List AllPreferenceResponse) (parentID : String)
    (groupPreferenceMap : GoMap (Option (List Preferences))) (group : PreferenceGroup) :
    Option AllPreferenceResponse :=
  if group.ParentGroup = parentID then
    let treeNode := AllPreferenceResponse.mk group.Id group.Name
      (nodePreferences groupPreferenceMap group.Id) (kids group.Id)
    if (kids group.Id).length = 0 ∧ treeNode.Preferences = none then none
    else some treeNode
  else none

/-- The parent relation of a group list is acyclic: some rank on group ids
grows strictly from the parent of each group to the group. -/
def Acyclic (groups : List PreferenceGroup) : Prop :=
  ∃ rank : String → Nat, ∀ g ∈ groups, rank g.ParentGroup < rank g.Id

/-! ## Bulk listing (model.go, lines 393-582) -/

/-- The call `db.Select(&dest, query, args...)` for a `SELECT cols FROM t WHERE
cond`: all rows of `rows` that satisfy `cond`, in table order, projected on
the selected columns, or the failure of the engine. -/
def DB.select {ρ α : Type} (db : DB) (st : Stmt) (rows : List ρ) (cond : ρ → Bool)
    (cols : ρ → α) : Except String (List α) :=
  if db.fails st then Except.error driverErr
  else Except.ok ((rows.filter cond).map cols)

/-- The map write `m[key] = val`. -/
def GoMap.set {β : Type} (m : GoMap β) (key : String) (val : β) : GoMap β :=
  if m.any (fun e => decide (e.1 = key)) then
    m.map (fun e => if e.1 = key then (key, val) else e)
  else m ++ [(key, val)]

/-- The map read `m[key]` of a `map[string]string`: the zero value `""` when
the key is absent. -/
def GoMap.index (m : GoMap String) (key : String) : String :=
  (m.get key).getD ""

/-- The loop `for _, preferenceValue := range values
{ valueMap[preferenceValue.PreferenceId] = preferenceValue.PreferenceValue }`. -/
def buildValueMap (values : List PreferenceKV) : GoMap String :=
  values.foldl (fun m kv => m.set kv.PreferenceId kv.PreferenceValue) []

/-- The end of the loop body of both listings: the entry of `preference.GroupId`
in `groupPreferenceMap` becomes `append([]Preferences{}, preferenceWithValue)`
when the group is not seen, `append(value, preferenceWithValue)` otherwise. -/
def addToGroup (groupPreferenceMap : GoMap (Option (List Preferences)))
    (preference : Preference) (preferenceWithValue : Preferences) :
    GoMap (Option (List Preferences)) :=
  match groupPreferenceMap.get preference.GroupId with
  | none => groupPreferenceMap.set preference.GroupId (some ([] ++ [preferenceWithValue]))
  | some value =>
    groupPreferenceMap.set preference.GroupId (some (value.getD [] ++ [preferenceWithValue]))

/-- The `preferenceWithValue` that `GetAllOrgPreferences` builds for a
definition (model.go, lines 439-451). -/
def orgPreferenceWithValue (preferenceValueMap : GoMap String) (preference : Preference) :
    Preferences :=
  let value :=
    if preferenceValueMap.index preference.Id = "" then preference.DefaultValue
    else preferenceValueMap.index preference.Id
  { Id := preference.Id, Name := preference.Name, DefaultValue := preference.DefaultValue,
    GroupId := preference.GroupId, DependsOn := preference.DependsOn,
    UserScope := preference.UserScope, OrgScope := preference.OrgScope, Value := value }

/-- The `preferenceWithValue` that `GetAllUserPreferences` builds for a
definition (model.go, lines 540-559). -/
def userPreferenceWithValue (orgPreferenceValueMap userPreferenceValueMap : GoMap String)
    (preference : Preference) : Preferences :=
  let value := ""
  let value := if preference.OrgScope = 1 then orgPreferenceValueMap.index preference.Id
    else value
  let value :=
    if preference.UserScope = 1 then
      match userPreferenceValueMap.get preference.Id with
      | some v => v
      | none => value
    else value
  let value := if value = "" then preference.DefaultValue else value
  { Id := preference.Id, Name := preference.Name, DefaultValue := preference.DefaultValue,
    GroupId := preference.GroupId, DependsOn := preference.DependsOn,
    UserScope := preference.UserScope, OrgScope := preference.OrgScope, Value := value }

/-- The loop over the definitions of a listing: each definition, with its
value, is filed under its group. -/
def buildGroupPreferenceMap (withValue : Preference → Preferences)
    (preferencesWithGroups : List Preference) : GoMap (Option (List Preferences)) :=
  preferencesWithGroups.foldl (fun m preference => addToGroup m preference (withValue preference))
    []

/-- Function `GetAllOrgPreferences`. The first argument bounds the depth of the
recursion of `buildGroupTree`; the result is `none` when that depth is not
enough. A returned `Except.ok none` is the Go result `nil, nil`. -/
def GetAllOrgPreferences (depth : Nat) (db : DB) (user : User) :
    Option (Except ApiError (Option (List AllPreferenceResponse))) :=
  let orgId := user.OrgId
  -- SELECT id, name, default_value, depends_on, user, org, group_id
  --   FROM preference WHERE preference.org = 1
  match db.select Stmt.selectPreference db.preference
      (fun d => decide (d.OrgScope = 1)) (fun d => d) with
  | Except.error err =>
    some (Except.error ⟨ErrorType.ErrorExec,
      "error in getting all org preferences: " ++ err⟩)
  | Except.ok orgPreferencesWithGroups =>
  if orgPreferencesWithGroups.length = 0 then some (Except.ok none)
  else
  -- SELECT preference_id, preference_value FROM org_preference WHERE org_id = $1
  match db.select Stmt.selectOrgPreference db.org_preference
      (fun r => decide (r.org_id = orgId))
      (fun r => PreferenceKV.mk r.preference_id r.preference_value) with
  | Except.error err =>
    some (Except.error ⟨ErrorType.ErrorExec,
      "error in getting all org preference values: " ++ err⟩)
  | Except.ok orgPreferenceValues =>
  let preferenceValueMap := buildValueMap orgPreferenceValues
  let groupPreferenceMap :=
    buildGroupPreferenceMap (orgPreferenceWithValue preferenceValueMap) orgPreferencesWithGroups
  -- SELECT * FROM preference_group
  match db.select Stmt.selectPreferenceGroup db.preference_group
      (fun _ => true) (fun g => g) with
  | Except.error err =>
    some (Except.error ⟨ErrorType.ErrorExec,
      "error in getting all preference groups: " ++ err⟩)
  | Except.ok preferenceGroups =>
  match buildGroupTree depth preferenceGroups "" groupPreferenceMap with
  | none => none
  | some allOrgPreferenceTree => some (Except.ok (some allOrgPreferenceTree))

/-- Function `GetAllUserPreferences`, with the depth bound of `buildGroupTree`
as first argument. -/
def GetAllUserPreferences (depth : Nat) (db : DB) (user : User) :
    Option (Except ApiError (Option (List AllPreferenceResponse))) :=
  let orgId := user.OrgId
  -- SELECT id, name, default_value, depends_on, user, org, group_id
  --   FROM preference WHERE preference.user = 1
  match db.select Stmt.selectPreference db.preference
      (fun d => decide (d.UserScope = 1)) (fun d => d) with
  | Except.error err =>
    some (Except.error ⟨ErrorType.ErrorExec,
      "error in getting all user preferences: " ++ err⟩)
  | Except.ok allUserPreferencesWithGroups =>
  if allUserPreferencesWithGroups.length = 0 then some (Except.ok none)
  else
  -- SELECT preference_id, preference_value FROM org_preference WHERE org_id = $1
  match db.select Stmt.selectOrgPreference db.org_preference
      (fun r => decide (r.org_id = orgId))
      (fun r => PreferenceKV.mk r.preference_id r.preference_value) with
  | Except.error err =>
    some (Except.error ⟨ErrorType.ErrorExec,
      "error in getting all org preference values: " ++ err⟩)
  | Except.ok orgPreferenceValues =>
  let orgPreferenceValueMap := buildValueMap orgPreferenceValues
  -- SELECT preference_id, preference_value FROM user_preference WHERE user_id = $1
  match db.select Stmt.selectUserPreference db.user_preference
      (fun r => decide (r.user_id = user.Id))
      (fun r => PreferenceKV.mk r.preference_id r.preference_value) with
  | Except.error err =>
    some (Except.error ⟨ErrorType.ErrorExec,
      "error in getting all user preference values: " ++ err⟩)
  | Except.ok userPreferenceValues =>
  let userPreferenceValueMap := buildValueMap userPreferenceValues
  let groupPreferenceMap :=
    buildGroupPreferenceMap
      (userPreferenceWithValue orgPreferenceValueMap userPreferenceValueMap)
      allUserPreferencesWithGroups
  -- SELECT * FROM preference_group
  match db.select Stmt.selectPreferenceGroup db.preference_group
      (fun _ => true) (fun g => g) with
  | Except.error err =>
    some (Except.error ⟨ErrorType.ErrorExec,
      "error in getting all preference groups: " ++ err⟩)
  | Except.ok preferenceGroups =>
  match buildGroupTree depth preferenceGroups "" groupPreferenceMap with
  | none => none
  | some allUserPreferenceTree => some (Except.ok (some allUserPreferenceTree))

/-! ## Schema bootstrapper (model.go, lines 56-214) -/

/-- Outcome of reading and decoding a bootstrap file: `fs.ReadFile` fails,
`json.Unmarshal` fails, or the decoded records. -/
inductive SeedFile (α : Type) where
  | readError (msg : String)
  | unmarshalError (msg : String)
  | records (rows : List α)

/-- Query `SELECT id FROM preference_group WHERE id = $1`. -/
def DB.getPreferenceGroupId (db : DB) (id : String) : GetResult PreferenceGroup :=
  db.get Stmt.selectPreferenceGroup db.preference_group (fun g => decide (g.Id = id))
    (fun g => PreferenceGroup.mk g.Id "" "")

/-- Column `id` of a `preference` row. -/
def colsId (d : Preference) : Preference :=
  { Preference.zero with Id := d.Id }

/-- The loop `for _, preferenceGroup := range preferenceGroups` of `InitDB`
(lines 89-109): the returned error and the database after the loop. -/
def seedPreferenceGroups : DB → List PreferenceGroup → Option String × DB
  | db, [] => (none, db)
  | db, preferenceGroup :: rest =>
    match db.getPreferenceGroupId preferenceGroup.Id with
    | GetResult.ErrNoRows =>
      -- INSERT INTO preference_group(id,name,parent_group) VALUES($1,$2,$3)
      match db.exec Stmt.insertPreferenceGroup
          { db with preference_group := (db.preference_group ++
              [⟨preferenceGroup.Id, preferenceGroup.Name, preferenceGroup.ParentGroup⟩]) } with
      | (some err, db1) =>
        (some ("error in adding bootstrap preference group: " ++ err), db1)
      | (none, db1) => seedPreferenceGroups db1 rest
    | GetResult.failure err =>
      (some ("error in bootstrap entries in preference group entity: " ++ err), db)
    | GetResult.row _ => seedPreferenceGroups db rest

/-- The loop `for _, preference := range preferences` of `InitDB`
(lines 144-164): the returned error and the database after the loop. -/
def seedPreferences : DB → List Preference → Option String × DB
  | db, [] => (none, db)
  | db, preference :: rest =>
    match db.getPreference colsId preference.Id with
    | GetResult.ErrNoRows =>
      -- INSERT INTO preference(id,name,default_value,depends_on,user,org,group_id)
      --   VALUES($1,$2,$3,$4,$5,$6,$7)
      match db.exec Stmt.insertPreference
          { db with preference := (db.preference ++
              [⟨preference.Id, preference.Name, preference.DefaultValue, preference.DependsOn,
                preference.UserScope, preference.OrgScope, preference.GroupId⟩]) } with
      | (some err, db1) =>
        (some ("error in adding bootstrap preference: " ++ err), db1)
      | (none, db1) => seedPreferences db1 rest
    | GetResult.failure err =>
      (some ("error in bootstrap entries in preference entity: " ++ err), db)
    | GetResult.row _ => seedPreferences db rest

/-- Function `InitDB`: the returned error (`none` for nil) and the database
after the call. `openErr` is the error of `sqlx.Open`, `db` the database behind
the data source, and the two files are the bootstrap documents as read and
decoded. A `CREATE TABLE IF NOT EXISTS` leaves the rows of a table as they are. -/
def InitDB (openErr : Option String) (db : DB)
    (bootstrapPreferenceGroup : SeedFile PreferenceGroup)
    (bootstrapPreferences : SeedFile Preference) : Option String × DB :=
  match openErr with
  | some err => (some err, db)
  | none =>
  match db.exec Stmt.createPreferenceGroupTable db with
  | (some err, db) => (some ("error in creating preference group table: " ++ err), db)
  | (none, db) =>
  match bootstrapPreferenceGroup with
  | SeedFile.readError err =>
    (some ("error in reading bootstrap preference group: " ++ err), db)
  | SeedFile.unmarshalError err =>
    (some ("error in unmarshalling bootstrap preference groups: " ++ err), db)
  | SeedFile.records preferenceGroups =>
  match seedPreferenceGroups db preferenceGroups with
  | (some err, db) => (some err, db)
  | (none, db) =>
  match db.exec Stmt.createPreferenceTable db with
  | (some err, db) => (some ("error in creating preference table: " ++ err), db)
  | (none, db) =>
  match bootstrapPreferences with
  | SeedFile.readError err =>
    (some ("error in reading bootstrap preferences: " ++ err), db)
  | SeedFile.unmarshalError err =>
    (some ("error in unmarshalling bootstrap preferences: " ++ err), db)
  | SeedFile.records preferences =>
  match seedPreferences db preferences with
  | (some err, db) => (some err, db)
  | (none, db) =>
  match db.exec Stmt.createUserPreferenceTable db with
  | (some err, db) => (some ("error in creating user_preference table: " ++ err), db)
  | (none, db) =>
  match db.exec Stmt.createOrgPreferenceTable db with
  | (some err, db) => (some ("error in creating org_preference table: " ++ err), db)
  | (none, db) => (none, db)

/-- Every statement that `InitDB` sends succeeds. -/
def DB.BootstrapSucceeds (db : DB) : Prop :=
  db.fails Stmt.createPreferenceGroupTable = false ∧
  db.fails Stmt.selectPreferenceGroup = false ∧
  db.fails Stmt.insertPreferenceGroup = false ∧
  db.fails Stmt.createPreferenceTable = false ∧
  db.fails Stmt.selectPreference = false ∧
  db.fails Stmt.insertPreference = false ∧
  db.fails Stmt.createUserPreferenceTable = false ∧
  db.fails Stmt.createOrgPreferenceTable = false

instance (db : DB) : Decidable db.BootstrapSucceeds := by
  unfold DB.BootstrapSucceeds; infer_instance

/-! ## Properties named by the claims -/

/-- Every value row carries a non-empty preference id. The writers are the
only code that inserts value rows, and they refuse a request with the empty
preference id (model.go, lines 275 and 354), so every store they produce has
this property. -/
def DB.ValueKeysNonEmpty (db : DB) : Prop :=
  (∀ r ∈ db.user_preference, r.preference_id ≠ "") ∧
  (∀ r ∈ db.org_preference, r.preference_id ≠ "")

instance (db : DB) : Decidable db.ValueKeysNonEmpty := by
  unfold DB.ValueKeysNonEmpty; infer_instance

/-- No entry of the map holds the empty non-nil list. Both listings fill the
map only by `append` of a preference (model.go, lines 453-458 and 561-566), so
every map they pass to `buildGroupTree` has this property. -/
def NoEmptyList (m : GoMap (Option (List Preferences))) : Prop :=
  ∀ e ∈ m, e.2 ≠ some []

instance (m : GoMap (Option (List Preferences))) : Decidable (NoEmptyList m) := by
  unfold NoEmptyList; infer_instance

/-- The scope invariant: every row of `user_preference` refers to a definition
with user-scope flag 1 and every row of `org_preference` to a definition with
org-scope flag 1. -/
def ScopeInvariant (db : DB) : Prop :=
  (∀ r ∈ db.user_preference, ∃ d ∈ db.preference, d.Id = r.preference_id ∧ d.UserScope = 1) ∧
  (∀ r ∈ db.org_preference, ∃ d ∈ db.preference, d.Id = r.preference_id ∧ d.OrgScope = 1)

instance (db : DB) : Decidable (ScopeInvariant db) := by
  unfold ScopeInvariant; infer_instance

/-- The `groupPreferenceMap` that `GetAllOrgPreferences` passes to
`buildGroupTree` when its reads succeed. -/
def orgListingMap (db : DB) (user : User) : GoMap (Option (List Preferences)) :=
  buildGroupPreferenceMap
    (orgPreferenceWithValue (buildValueMap
      ((db.org_preference.filter (fun r => decide (r.org_id = user.OrgId))).map
        (fun r => PreferenceKV.mk r.preference_id r.preference_value))))
    (db.preference.filter (fun d => decide (d.OrgScope = 1)))

/-- The `groupPreferenceMap` that `GetAllUserPreferences` passes to
`buildGroupTree` when its reads succeed. -/
def userListingMap (db : DB) (user : User) : GoMap (Option (List Preferences)) :=
  buildGroupPreferenceMap
    (userPreferenceWithValue
      (buildValueMap
        ((db.org_preference.filter (fun r => decide (r.org_id = user.OrgId))).map
          (fun r => PreferenceKV.mk r.preference_id r.preference_value)))
      (buildValueMap
        ((db.user_preference.filter (fun r => decide (r.user_id = user.Id))).map
          (fun r => PreferenceKV.mk r.preference_id r.preference_value))))
    (db.preference.filter (fun d => decide (d.UserScope = 1)))

/-- The ids of the groups of the list whose parent is `parentID`, in list
order. -/
def childIds (groups : List PreferenceGroup) (parentID : String) : List String :=
  (groups.filter (fun g => decide (g.ParentGroup = parentID))).map (fun g => g.Id)

/-- A tree keeps the order of the group list below `parentID`: the group ids
of its nodes are a subsequence of the ids of the groups whose parent is
`parentID`, and the same holds for the children of every node with respect to
the group id of the node. -/
inductive OrderPreserved (groups : List PreferenceGroup) :
    String → List AllPreferenceResponse → Prop where
  | intro (parentID : String) (tree : List AllPreferenceResponse)
      (hsub : List.Sublist (tree.map AllPreferenceResponse.GroupId) (childIds groups parentID))
      (hchild : ∀ n ∈ tree, OrderPreserved groups n.GroupId n.ChildGroup) :
      OrderPreserved groups parentID tree

/-! ## Reading results, and sample data -/

deriving instance DecidableEq for Except

/-- The error kind of a result, `none` for a success. -/
def errTyp {α : Type} : Except ApiError α → Option ErrorType
  | Except.error e => some e.Typ
  | Except.ok _ => none

/-- A caller with user id `u1` in organization `o1`. -/
def sampleUser : User := ⟨"u1", "o1"⟩

/-- The definition `{id: p1, default: false, org: 1, user: 1, group: g1}`. -/
def sampleDef : Preference := ⟨"p1", "Preference 1", "false", "", 1, 1, "g1"⟩

/-- A definition enabled for the user scope only. -/
def userOnlyDef : Preference := ⟨"p2", "Preference 2", "d2", "", 1, 0, "g1"⟩

/-- A definition enabled for the org scope only. -/
def orgOnlyDef : Preference := ⟨"p3", "Preference 3", "d3", "", 0, 1, "g1"⟩

/-- The three sample definitions and no value row. -/
def noRowsDB : DB := ⟨[], [sampleDef, userOnlyDef, orgOnlyDef], [], [], []⟩

/-- The three sample definitions, and for each a value row of `u1` and one of
`o1`. -/
def bothRowsDB : DB :=
  ⟨[], [sampleDef, userOnlyDef, orgOnlyDef],
    [⟨"p1", "vu", "u1"⟩, ⟨"p3", "wu", "u1"⟩],
    [⟨"p1", "vo", "o1"⟩, ⟨"p2", "wo", "o1"⟩], []⟩

/-- The sample definitions, and value rows of `u1` and `o1` for a preference
id `p9` that has no definition. -/
def orphanRowsDB : DB :=
  ⟨[], [sampleDef, userOnlyDef, orgOnlyDef],
    [⟨"p9", "vu", "u1"⟩], [⟨"p9", "vo", "o1"⟩], []⟩

/-- The sample definitions with org rows of `o1` and no user row. -/
def orgRowsDB : DB :=
  ⟨[], [sampleDef, userOnlyDef, orgOnlyDef], [],
    [⟨"p1", "vo", "o1"⟩, ⟨"p2", "wo", "o1"⟩], []⟩

/-- One root group `g1` that holds the definition `p1`, and no value row. -/
def listingDB : DB :=
  ⟨[⟨"g1", "Group 1", ""⟩], [sampleDef], [], [], []⟩

/-- The definition `p1`, whose group `g1` is not in the group table. -/
def noGroupDB : DB :=
  ⟨[], [sampleDef], [], [], []⟩

/-- A group table whose only group has the empty id and is its own parent. -/
def selfParentDB : DB :=
  ⟨[⟨"", "Root", ""⟩], [sampleDef], [], [], []⟩

/-- The database `listingDB` after organization `o1` has written the empty
string as value of `p1`. -/
def emptyOrgValueDB : DB :=
  (UpdateOrgPreference listingDB sampleUser ⟨"p1", ""⟩).2

/-- The database `listingDB` after user `u1` has written the empty string as
value of `p1`. -/
def emptyUserValueDB : DB :=
  (UpdateUserPreference listingDB sampleUser ⟨"p1", ""⟩).2

/-- Three groups: `g1` and `g3` at the root, `g2` below `g1`. -/
def sampleGroups : List PreferenceGroup :=
  [⟨"g1", "Group 1", ""⟩, ⟨"g2", "Group 2", "g1"⟩, ⟨"g3", "Group 3", ""⟩]

/-- A map that holds one preference for group `g2`. -/
def sampleGroupMap : GoMap (Option (List Preferences)) :=
  [("g2", some [⟨sampleDef, "false"⟩])]

/-! ## Lemmas on the storage model -/

/-- The first row that satisfies a condition is `x`, when `x` satisfies it and is the only such row. -/
theorem find?_of_unique {ρ : Type} {l : List ρ} {cond : ρ → Bool} {x : ρ}
    (hx : x ∈ l) (hc : cond x = true) (huniq : ∀ y ∈ l, cond y = true → y = x) :
    l.find? cond = some x := by
  induction l with
  | nil => cases hx
  | cons a t ih =>
    by_cases ha : cond a = true
    · have hax : a = x := huniq a (List.mem_cons_self a t) ha
      subst hax
      simp [List.find?, ha]
    · have hxt : x ∈ t := by
        rcases List.mem_cons.mp hx with h | h
        · exact absurd (h ▸ hc) ha
        · exact h
      have := ih hxt (fun y hy hcy => huniq y (List.mem_cons_of_mem a hy) hcy)
      simp [List.find?, ha, this]

/-- No row is found when no row satisfies the condition. -/
theorem find?_none_of_forall {ρ : Type} {l : List ρ} {cond : ρ → Bool}
    (h : ∀ y ∈ l, cond y = false) : l.find? cond = none := by
  induction l with
  | nil => rfl
  | cons a t ih =>
    have ha : cond a = false := h a (List.mem_cons_self a t)
    have := ih (fun y hy => h y (List.mem_cons_of_mem a hy))
    simp [List.find?, ha, this]

/-- Under the primary key of `preference`, the query by id returns the stored definition, projected on the selected columns. -/
theorem DB.getPreference_row {db : DB} (cols : Preference → Preference)
    (hpk : (db.preference.map (fun p => p.Id)).Nodup)
    (hf : db.fails Stmt.selectPreference = false) {d : Preference}
    (hd : d ∈ db.preference) :
    db.getPreference cols d.Id = GetResult.row (cols d) := by
  have hfind : db.preference.find? (fun x => decide (x.Id = d.Id)) = some d := by
    apply find?_of_unique hd (by simp)
    intro y hy hc
    exact List.inj_on_of_nodup_map hpk hy hd (by simpa using hc)
  simp [DB.getPreference, DB.get, hf, hfind]

/-- The query by id answers `sql.ErrNoRows` when no definition has the id. -/
theorem DB.getPreference_noRows {db : DB} (cols : Preference → Preference)
    (hf : db.fails Stmt.selectPreference = false) {p : String}
    (hno : ∀ d ∈ db.preference, d.Id ≠ p) :
    db.getPreference cols p = GetResult.ErrNoRows := by
  have hfind : db.preference.find? (fun x => decide (x.Id = p)) = none :=
    find?_none_of_forall (fun y hy => by simpa using hno y hy)
  simp [DB.getPreference, DB.get, hf, hfind]

/-- Under the primary key of `user_preference`, the query by key returns the stored row. -/
theorem DB.getUserPreferenceKV_row {db : DB}
    (hpk : (db.user_preference.map (fun r => (r.preference_id, r.user_id))).Nodup)
    (hf : db.fails Stmt.selectUserPreference = false) {p v u : String}
    (hr : UserPreferenceRow.mk p v u ∈ db.user_preference) :
    db.getUserPreferenceKV p u = GetResult.row ⟨p, v⟩ := by
  have hfind : db.user_preference.find?
      (fun x => decide (x.preference_id = p ∧ x.user_id = u)) = some ⟨p, v, u⟩ := by
    apply find?_of_unique hr (by simp)
    intro y hy hc
    have hc2 : y.preference_id = p ∧ y.user_id = u := by simpa using hc
    exact List.inj_on_of_nodup_map hpk hy hr (by simp [hc2.1, hc2.2])
  simp only [DB.getUserPreferenceKV, DB.get, hf, hfind]
  simp

/-- The query by key on `user_preference` answers `sql.ErrNoRows` when no row has the key. -/
theorem DB.getUserPreferenceKV_noRows {db : DB}
    (hf : db.fails Stmt.selectUserPreference = false) {p u : String}
    (hno : ∀ r ∈ db.user_preference, ¬ (r.preference_id = p ∧ r.user_id = u)) :
    db.getUserPreferenceKV p u = GetResult.ErrNoRows := by
  have hfind : db.user_preference.find?
      (fun x => decide (x.preference_id = p ∧ x.user_id = u)) = none :=
    find?_none_of_forall (fun y hy => by simpa using hno y hy)
  simp only [DB.getUserPreferenceKV, DB.get, hf, hfind]
  simp

/-- A succeeding read of `user_preference` by key gives no row, or a row whose preference id is the one asked for. -/
theorem DB.getUserPreferenceKV_cases {db : DB}
    (hf : db.fails Stmt.selectUserPreference = false) (p u : String) :
    db.getUserPreferenceKV p u = GetResult.ErrNoRows ∨
      ∃ v, db.getUserPreferenceKV p u = GetResult.row ⟨p, v⟩ := by
  unfold DB.getUserPreferenceKV DB.get
  rw [hf]
  cases hfind : db.user_preference.find?
      (fun x => decide (x.preference_id = p ∧ x.user_id = u)) with
  | none => left; simp
  | some r =>
    right
    have := List.find?_some hfind
    have hc : r.preference_id = p ∧ r.user_id = u := by simpa using this
    exact ⟨r.preference_value, by simp [hc.1]⟩

/-- Under the primary key of `org_preference`, the query by key returns the stored row. -/
theorem DB.getOrgPreferenceKV_row {db : DB}
    (hpk : (db.org_preference.map (fun r => (r.preference_id, r.org_id))).Nodup)
    (hf : db.fails Stmt.selectOrgPreference = false) {p v o : String}
    (hr : OrgPreferenceRow.mk p v o ∈ db.org_preference) :
    db.getOrgPreferenceKV p o = GetResult.row ⟨p, v⟩ := by
  have hfind : db.org_preference.find?
      (fun x => decide (x.preference_id = p ∧ x.org_id = o)) = some ⟨p, v, o⟩ := by
    apply find?_of_unique hr (by simp)
    intro y hy hc
    have hc2 : y.preference_id = p ∧ y.org_id = o := by simpa using hc
    exact List.inj_on_of_nodup_map hpk hy hr (by simp [hc2.1, hc2.2])
  simp only [DB.getOrgPreferenceKV, DB.get, hf, hfind]
  simp

/-- The query by key on `org_preference` answers `sql.ErrNoRows` when no row has the key. -/
theorem DB.getOrgPreferenceKV_noRows {db : DB}
    (hf : db.fails Stmt.selectOrgPreference = false) {p o : String}
    (hno : ∀ r ∈ db.org_preference, ¬ (r.preference_id = p ∧ r.org_id = o)) :
    db.getOrgPreferenceKV p o = GetResult.ErrNoRows := by
  have hfind : db.org_preference.find?
      (fun x => decide (x.preference_id = p ∧ x.org_id = o)) = none :=
    find?_none_of_forall (fun y hy => by simpa using hno y hy)
  simp only [DB.getOrgPreferenceKV, DB.get, hf, hfind]
  simp

/-- A succeeding read of `org_preference` by key gives no row, or a row whose preference id is the one asked for. -/
theorem DB.getOrgPreferenceKV_cases {db : DB}
    (hf : db.fails Stmt.selectOrgPreference = false) (p o : String) :
    db.getOrgPreferenceKV p o = GetResult.ErrNoRows ∨
      ∃ v, db.getOrgPreferenceKV p o = GetResult.row ⟨p, v⟩ := by
  unfold DB.getOrgPreferenceKV DB.get
  rw [hf]
  cases hfind : db.org_preference.find?
      (fun x => decide (x.preference_id = p ∧ x.org_id = o)) with
  | none => left; simp
  | some r =>
    right
    have := List.find?_some hfind
    have hc : r.preference_id = p ∧ r.org_id = o := by simpa using this
    exact ⟨r.preference_value, by simp [hc.1]⟩

/-- The resolver for the user scope answers `Forbidden` for a definition whose user-scope flag is not 1. -/
theorem getUserPreference_forbidden {db : DB} {user : User} {p : String} {d : Preference}
    (hwf : db.WellFormed) (hreads : db.ReadsSucceed)
    (hd : d ∈ db.preference) (hid : d.Id = p) (hu : d.UserScope ≠ 1) :
    errTyp (GetUserPreference db user p) = some ErrorType.ErrorForbidden := by
  subst hid
  rcases DB.getUserPreferenceKV_cases hreads.1 d.Id user.Id with h1 | ⟨v1, h1⟩ <;>
  rcases DB.getOrgPreferenceKV_cases hreads.2.1 d.Id user.OrgId with h2 | ⟨v2, h2⟩ <;>
  simp [GetUserPreference, h1, h2,
      DB.getPreference_row colsUserOrgDefault hwf.2.1 hreads.2.2 hd,
      colsUserOrgDefault, hu, errTyp]

/-- The upsert on `user_preference` is idempotent. -/
theorem DB.upsertUserRows_idem (rows : List UserPreferenceRow) (p v u : String) :
    DB.upsertUserRows (DB.upsertUserRows rows p v u) p v u = DB.upsertUserRows rows p v u := by
  have hmap : ∀ l : List UserPreferenceRow,
      (l.map (fun r => if r.preference_id = p ∧ r.user_id = u then
          { r with preference_value := v } else r)).map
        (fun r => if r.preference_id = p ∧ r.user_id = u then
          { r with preference_value := v } else r) =
      l.map (fun r => if r.preference_id = p ∧ r.user_id = u then
          { r with preference_value := v } else r) := by
    intro l
    rw [List.map_map]
    apply List.map_congr_left
    intro r _
    by_cases h : r.preference_id = p ∧ r.user_id = u
    · simp [h]
    · simp [h]
  by_cases hany : rows.any (fun r => decide (r.preference_id = p ∧ r.user_id = u)) = true
  · have hany2 : (rows.map (fun r => if r.preference_id = p ∧ r.user_id = u then
          { r with preference_value := v } else r)).any
          (fun r => decide (r.preference_id = p ∧ r.user_id = u)) = true := by
      rw [List.any_eq_true] at hany ⊢
      obtain ⟨x, hx, hc⟩ := hany
      have hc2 : x.preference_id = p ∧ x.user_id = u := by simpa using hc
      refine ⟨{ x with preference_value := v }, ?_, by simpa using hc2⟩
      rw [List.mem_map]
      exact ⟨x, hx, by simp [hc2]⟩
    unfold DB.upsertUserRows
    rw [if_pos hany, if_pos hany2]
    exact hmap rows
  · have hnone : ∀ r ∈ rows, ¬ (r.preference_id = p ∧ r.user_id = u) := by
      intro r hr hc
      apply hany
      rw [List.any_eq_true]
      exact ⟨r, hr, by simpa using hc⟩
    have hany2 : (rows ++ [UserPreferenceRow.mk p v u]).any
          (fun r => decide (r.preference_id = p ∧ r.user_id = u)) = true := by
      simp
    unfold DB.upsertUserRows
    rw [if_neg hany, if_pos hany2]
    rw [List.map_append]
    congr 1
    · conv_rhs => rw [← List.map_id rows]
      apply List.map_congr_left
      intro r hr
      have := hnone r hr
      simp [this]
    · simp

/-- After the upsert on a table that respects its primary key, the rows with the written key are the one written row. -/
theorem DB.upsertUserRows_filter (rows : List UserPreferenceRow) (p v u : String)
    (hpk : (rows.map (fun r => (r.preference_id, r.user_id))).Nodup) :
    (DB.upsertUserRows rows p v u).filter
      (fun r => decide (r.preference_id = p ∧ r.user_id = u)) = [⟨p, v, u⟩] := by
  have hnomatch : ∀ l : List UserPreferenceRow,
      (∀ r ∈ l, ¬ (r.preference_id = p ∧ r.user_id = u)) →
      (l.map (fun r => if r.preference_id = p ∧ r.user_id = u then
          { r with preference_value := v } else r)).filter
        (fun r => decide (r.preference_id = p ∧ r.user_id = u)) = [] := by
    intro l hl
    rw [List.filter_eq_nil_iff]
    intro r hr
    rw [List.mem_map] at hr
    obtain ⟨x, hx, rfl⟩ := hr
    have := hl x hx
    simp [this]
  unfold DB.upsertUserRows
  split_ifs with hany
  · induction rows with
    | nil => simp at hany
    | cons a t ih =>
      rw [List.map_cons, List.nodup_cons] at hpk
      by_cases ha : a.preference_id = p ∧ a.user_id = u
      · have ht : ∀ r ∈ t, ¬ (r.preference_id = p ∧ r.user_id = u) := by
          intro r hr hc
          apply hpk.1
          rw [List.mem_map]
          exact ⟨r, hr, by simp [hc.1, hc.2, ha.1, ha.2]⟩
        rw [List.map_cons, List.filter_cons, hnomatch t ht]
        obtain ⟨i, w, k⟩ := a
        simp only at ha
        simp [ha.1, ha.2]
      · have hany2 : t.any (fun r => decide (r.preference_id = p ∧ r.user_id = u)) = true := by
          rw [List.any_cons] at hany
          simpa [ha] using hany
        rw [List.map_cons, List.filter_cons]
        simp only [ha, if_false]
        simpa [ha] using ih hpk.2 hany2
  · have hnone : ∀ r ∈ rows, ¬ (r.preference_id = p ∧ r.user_id = u) := by
      intro r hr hc
      apply hany
      rw [List.any_eq_true]
      exact ⟨r, hr, by simpa using hc⟩
    rw [List.filter_append]
    have : rows.filter (fun r => decide (r.preference_id = p ∧ r.user_id = u)) = [] := by
      rw [List.filter_eq_nil_iff]
      intro r hr
      simpa using hnone r hr
    rw [this]
    simp

/-! ## Lemmas on the tree builder -/

/-- The loop of `buildGroupTree`, when the recursive calls it makes return `kids`: the nodes kept by the loop body are appended to the tree in the order of the group list. -/
theorem buildGroupTreeLoop_eq (recur : String → Option (List AllPreferenceResponse))
    (kids : String → List AllPreferenceResponse) (parentID : String)
    (m : GoMap (Option (List Preferences))) (gs : List PreferenceGroup)
    (hrec : ∀ g ∈ gs, g.ParentGroup = parentID → recur g.Id = some (kids g.Id))
    (tree : List AllPreferenceResponse) :
    buildGroupTreeLoop recur parentID m gs tree =
      some (tree ++ gs.filterMap (keptNode kids parentID m)) := by
  induction gs generalizing tree with
  | nil => simp [buildGroupTreeLoop]
  | cons g rest ih =>
    have ih2 := ih (fun x hx => hrec x (List.mem_cons_of_mem g hx))
    by_cases hpar : g.ParentGroup = parentID
    · have hg := hrec g (List.mem_cons_self g rest) hpar
      by_cases hskip : (kids g.Id).length = 0 ∧
          (AllPreferenceResponse.mk g.Id g.Name (nodePreferences m g.Id)
            (kids g.Id)).Preferences = none
      · have hk : keptNode kids parentID m g = none := by
          simp only [keptNode, if_pos hpar, if_pos hskip]
        simp only [buildGroupTreeLoop, if_pos hpar, hg, if_pos hskip, List.filterMap_cons, hk,
          ih2]
      · have hk : keptNode kids parentID m g = some (AllPreferenceResponse.mk g.Id g.Name
            (nodePreferences m g.Id) (kids g.Id)) := by
          simp only [keptNode, if_pos hpar, if_neg hskip]
        simp only [buildGroupTreeLoop, if_pos hpar, hg, if_neg hskip, List.filterMap_cons, hk,
          ih2, List.append_assoc, List.singleton_append]
    · have hk : keptNode kids parentID m g = none := by
        simp only [keptNode, if_neg hpar]
      simp only [buildGroupTreeLoop, if_neg hpar, List.filterMap_cons, hk, ih2]

/-- A result of the loop is kept when the recursive calls return more results. -/
theorem buildGroupTreeLoop_mono (recur recur2 : String → Option (List AllPreferenceResponse))
    (hext : ∀ id t, recur id = some t → recur2 id = some t) (parentID : String)
    (m : GoMap (Option (List Preferences))) (gs : List PreferenceGroup)
    (tree t : List AllPreferenceResponse)
    (h : buildGroupTreeLoop recur parentID m gs tree = some t) :
    buildGroupTreeLoop recur2 parentID m gs tree = some t := by
  induction gs generalizing tree with
  | nil => simpa [buildGroupTreeLoop] using h
  | cons g rest ih =>
    by_cases hpar : g.ParentGroup = parentID
    · simp only [buildGroupTreeLoop, if_pos hpar] at h ⊢
      cases hr : recur g.Id with
      | none => simp [hr] at h
      | some children =>
        rw [hr] at h
        rw [hext _ _ hr]
        simp only at h ⊢
        split_ifs at h ⊢ with hskip
        · exact ih _ h
        · exact ih _ h
    · simp only [buildGroupTreeLoop, if_neg hpar] at h ⊢
      exact ih _ h

/-- A result of `buildGroupTree` is kept by one more level of depth. -/
theorem buildGroupTree_succ (groups : List PreferenceGroup)
    (m : GoMap (Option (List Preferences))) (depth : Nat) :
    ∀ (parentID : String) (t : List AllPreferenceResponse),
      buildGroupTree depth groups parentID m = some t →
      buildGroupTree (depth + 1) groups parentID m = some t := by
  induction depth with
  | zero => intro parentID t h; simp [buildGroupTree] at h
  | succ d ih =>
    intro parentID t h
    simp only [buildGroupTree] at h ⊢
    exact buildGroupTreeLoop_mono _ _ (fun id t ht => by
      have := ih id t ht
      simpa only [buildGroupTree] using this) parentID m groups [] t h

/-- A result of `buildGroupTree` is kept by every larger depth bound. -/
theorem buildGroupTree_mono (groups : List PreferenceGroup)
    (m : GoMap (Option (List Preferences))) {depth depth2 : Nat} (hle : depth ≤ depth2)
    (parentID : String) (t : List AllPreferenceResponse)
    (h : buildGroupTree depth groups parentID m = some t) :
    buildGroupTree depth2 groups parentID m = some t := by
  induction hle with
  | refl => exact h
  | step _ ih => exact buildGroupTree_succ groups m _ parentID t ih

/-- Each term of a sum of naturals is at most the sum. -/
theorem le_sum_map_of_mem {α : Type} (f : α → Nat) (l : List α) (x : α) (hx : x ∈ l) :
    f x ≤ (l.map f).sum := by
  induction l with
  | nil => cases hx
  | cons a t ih =>
    rcases List.mem_cons.mp hx with h | h
    · subst h; simp
    · have := ih h
      simp only [List.map_cons, List.sum_cons]
      omega

/-- With a rank that grows from parent to child, `buildGroupTree` has a result as soon as the depth bound exceeds the ranks left above `parentID`. -/
theorem buildGroupTree_terminates (groups : List PreferenceGroup)
    (m : GoMap (Option (List Preferences))) (rank : String → Nat)
    (hrank : ∀ g ∈ groups, rank g.ParentGroup < rank g.Id) (depth : Nat) :
    ∀ parentID : String,
      (groups.map (fun g => rank g.Id)).sum + 1 - rank parentID < depth →
      ∃ t, buildGroupTree depth groups parentID m = some t := by
  induction depth with
  | zero => intro parentID h; omega
  | succ d ih =>
    intro parentID h
    have hrec : ∀ g ∈ groups, g.ParentGroup = parentID →
        buildGroupTree d groups g.Id m =
          some ((buildGroupTree d groups g.Id m).getD []) := by
      intro g hg hpar
      have h1 := hrank g hg
      have h2 := le_sum_map_of_mem (fun g => rank g.Id) groups g hg
      simp only at h2
      rw [hpar] at h1
      obtain ⟨t, ht⟩ := ih g.Id (by omega)
      simp [ht]
    exact ⟨_, by
      simp only [buildGroupTree]
      exact buildGroupTreeLoop_eq _ (fun id => (buildGroupTree d groups id m).getD [])
        parentID m groups hrec []⟩

/-- On an acyclic group list the recursion of `buildGroupTree` ends: every
large enough depth bound gives the same trees `kids parentID`, and these
satisfy the equation of the loop. -/
theorem buildGroupTree_of_acyclic (groups : List PreferenceGroup)
    (m : GoMap (Option (List Preferences))) (hacyc : Acyclic groups) :
    ∃ (N : Nat) (kids : String → List AllPreferenceResponse),
      ∀ depth, N ≤ depth → ∀ parentID,
        buildGroupTree depth groups parentID m = some (kids parentID) ∧
        kids parentID = groups.filterMap (keptNode kids parentID m) := by
  obtain ⟨rank, hrank⟩ := hacyc
  let M := (groups.map (fun g => rank g.Id)).sum
  have hterm : ∀ id, ∃ t, buildGroupTree (M + 2) groups id m = some t :=
    fun id => buildGroupTree_terminates groups m rank hrank (M + 2) id (by omega)
  let kids : String → List AllPreferenceResponse :=
    fun id => (buildGroupTree (M + 2) groups id m).getD []
  have hkids : ∀ depth, M + 2 ≤ depth → ∀ id,
      buildGroupTree depth groups id m = some (kids id) := by
    intro depth hd id
    obtain ⟨t, ht⟩ := hterm id
    have : kids id = t := by simp [kids, ht]
    rw [this]
    exact buildGroupTree_mono groups m hd id t ht
  refine ⟨M + 3, kids, ?_⟩
  intro depth hd parentID
  refine ⟨hkids depth (by omega) parentID, ?_⟩
  obtain ⟨d, rfl⟩ : ∃ d, depth = d + 1 := ⟨depth - 1, by omega⟩
  have h1 := hkids (d + 1) (by omega) parentID
  simp only [buildGroupTree] at h1
  rw [buildGroupTreeLoop_eq _ kids parentID m groups
    (fun g _ _ => hkids d (by omega) g.Id) []] at h1
  simpa using h1.symm

/-- The sample groups have an acyclic parent relation. -/
theorem sampleGroups_acyclic : Acyclic sampleGroups :=
  ⟨fun s => if s = "" then 0 else if s = "g1" then 1 else 2, by decide⟩

/-! ## Lemmas on the writers -/

/-- A definition row returned by the query by id is the first stored definition with that id, and every other selection of columns returns the same definition. -/
theorem DB.getPreference_row_inv {db : DB} {cols : Preference → Preference} {p : String}
    {x : Preference} (h : db.getPreference cols p = GetResult.row x) :
    ∃ d, d ∈ db.preference ∧ d.Id = p ∧ x = cols d ∧
      ∀ cols2 : Preference → Preference, db.getPreference cols2 p = GetResult.row (cols2 d) := by
  unfold DB.getPreference DB.get at h
  split_ifs at h with hf
  cases hfind : db.preference.find? (fun d => decide (d.Id = p)) with
  | none => simp [hfind] at h
  | some d =>
    rw [hfind] at h
    simp only [GetResult.row.injEq] at h
    refine ⟨d, List.mem_of_find?_eq_some hfind, by simpa using List.find?_some hfind,
      h.symm, ?_⟩
    intro cols2
    simp [DB.getPreference, DB.get, hf, hfind]

/-- A row of `user_preference` after the upsert has the written preference id or was stored before. -/
theorem DB.mem_upsertUserRows {rows : List UserPreferenceRow} {p v u : String}
    {r : UserPreferenceRow} (h : r ∈ DB.upsertUserRows rows p v u) :
    r.preference_id = p ∨ r ∈ rows := by
  unfold DB.upsertUserRows at h
  split_ifs at h with hany
  · rw [List.mem_map] at h
    obtain ⟨r0, hr0, hr⟩ := h
    by_cases hc : r0.preference_id = p ∧ r0.user_id = u
    · left
      rw [if_pos hc] at hr
      rw [← hr]
      exact hc.1
    · right
      rw [if_neg hc] at hr
      rw [← hr]
      exact hr0
  · rw [List.mem_append] at h
    rcases h with h | h
    · exact Or.inr h
    · left
      simp only [List.mem_singleton] at h
      rw [h]

/-- A row of `org_preference` after the upsert has the written preference id or was stored before. -/
theorem DB.mem_upsertOrgRows {rows : List OrgPreferenceRow} {p v o : String}
    {r : OrgPreferenceRow} (h : r ∈ DB.upsertOrgRows rows p v o) :
    r.preference_id = p ∨ r ∈ rows := by
  unfold DB.upsertOrgRows at h
  split_ifs at h with hany
  · rw [List.mem_map] at h
    obtain ⟨r0, hr0, hr⟩ := h
    by_cases hc : r0.preference_id = p ∧ r0.org_id = o
    · left
      rw [if_pos hc] at hr
      rw [← hr]
      exact hc.1
    · right
      rw [if_neg hc] at hr
      rw [← hr]
      exact hr0
  · rw [List.mem_append] at h
    rcases h with h | h
    · exact Or.inr h
    · left
      simp only [List.mem_singleton] at h
      rw [h]

/-- The database after `UpdateUserPreference`: unchanged, or the upsert on
`user_preference`, and then the preference id is non-empty and the first
definition with that id has user-scope flag 1. -/
theorem UpdateUserPreference_db (db : DB) (user : User) (req : PreferenceKV) :
    ((∃ e, (UpdateUserPreference db user req).1 = Except.error e) ∧
      (UpdateUserPreference db user req).2 = db) ∨
    ((UpdateUserPreference db user req).1 = Except.ok ⟨req.PreferenceId, req.PreferenceValue⟩ ∧
      req.PreferenceId ≠ "" ∧
      (∃ d, d ∈ db.preference ∧ d.Id = req.PreferenceId ∧ d.UserScope = 1 ∧
        ∀ cols2 : Preference → Preference,
          db.getPreference cols2 req.PreferenceId = GetResult.row (cols2 d)) ∧
      (UpdateUserPreference db user req).2 = { db with
        user_preference := (DB.upsertUserRows db.user_preference req.PreferenceId
          req.PreferenceValue user.Id) }) := by
  unfold UpdateUserPreference
  simp only []
  split_ifs with hp
  · exact Or.inl ⟨⟨_, rfl⟩, rfl⟩
  · split
    · exact Or.inl ⟨⟨_, rfl⟩, rfl⟩
    · exact Or.inl ⟨⟨_, rfl⟩, rfl⟩
    · rename_i preference hrow
      split_ifs with hu
      · exact Or.inl ⟨⟨_, rfl⟩, rfl⟩
      · unfold DB.exec
        split_ifs with hf
        · exact Or.inl ⟨⟨_, rfl⟩, rfl⟩
        · right
          obtain ⟨d, hd, hid, hx, hall⟩ := DB.getPreference_row_inv hrow
          refine ⟨rfl, hp, ⟨d, hd, hid, ?_, hall⟩, rfl⟩
          rw [hx] at hu
          simpa [colsUser] using hu

/-- The database after `UpdateOrgPreference`: unchanged, or the upsert on
`org_preference`, and then the preference id and the org id are non-empty and
the first definition with that id has org-scope flag 1. -/
theorem UpdateOrgPreference_db (db : DB) (user : User) (req : UpdateOrgPreferenceRequest) :
    ((∃ e, (UpdateOrgPreference db user req).1 = Except.error e) ∧
      (UpdateOrgPreference db user req).2 = db) ∨
    ((UpdateOrgPreference db user req).1 = Except.ok ⟨req.PreferenceId, req.PreferenceValue⟩ ∧
      req.PreferenceId ≠ "" ∧ user.OrgId ≠ "" ∧
      (∃ d, d ∈ db.preference ∧ d.Id = req.PreferenceId ∧ d.OrgScope = 1 ∧
        ∀ cols2 : Preference → Preference,
          db.getPreference cols2 req.PreferenceId = GetResult.row (cols2 d)) ∧
      (UpdateOrgPreference db user req).2 = { db with
        org_preference := (DB.upsertOrgRows db.org_preference req.PreferenceId
          req.PreferenceValue user.OrgId) }) := by
  unfold UpdateOrgPreference
  simp only []
  split_ifs with hp ho
  · exact Or.inl ⟨⟨_, rfl⟩, rfl⟩
  · exact Or.inl ⟨⟨_, rfl⟩, rfl⟩
  · split
    · exact Or.inl ⟨⟨_, rfl⟩, rfl⟩
    · exact Or.inl ⟨⟨_, rfl⟩, rfl⟩
    · rename_i preference hrow
      split_ifs with hu
      · exact Or.inl ⟨⟨_, rfl⟩, rfl⟩
      · unfold DB.exec
        split_ifs with hf
        · exact Or.inl ⟨⟨_, rfl⟩, rfl⟩
        · right
          obtain ⟨d, hd, hid, hx, hall⟩ := DB.getPreference_row_inv hrow
          refine ⟨rfl, hp, ho, ⟨d, hd, hid, ?_, hall⟩, rfl⟩
          rw [hx] at hu
          simpa [colsOrg] using hu

/-- The writers keep every value row under a non-empty preference id: a store
that has this property keeps it through any call of `UpdateUserPreference` and
`UpdateOrgPreference`, and a store without value rows has it. -/
theorem writers_keep_value_keys (db : DB) (user : User) (reqU : PreferenceKV)
    (reqO : UpdateOrgPreferenceRequest) (hkeys : db.ValueKeysNonEmpty) :
    DB.ValueKeysNonEmpty (UpdateUserPreference db user reqU).2 ∧
    DB.ValueKeysNonEmpty (UpdateOrgPreference db user reqO).2 := by
  constructor
  · rcases UpdateUserPreference_db db user reqU with ⟨-, h⟩ | ⟨-, hp, -, h⟩
    · rw [h]; exact hkeys
    · rw [h]
      refine ⟨?_, hkeys.2⟩
      intro r hr
      rcases DB.mem_upsertUserRows hr with hrp | hrm
      · rw [hrp]; exact hp
      · exact hkeys.1 r hrm
  · rcases UpdateOrgPreference_db db user reqO with ⟨-, h⟩ | ⟨-, hp, -, -, h⟩
    · rw [h]; exact hkeys
    · rw [h]
      refine ⟨hkeys.1, ?_⟩
      intro r hr
      rcases DB.mem_upsertOrgRows hr with hrp | hrm
      · rw [hrp]; exact hp
      · exact hkeys.2 r hrm

/-- The upsert on `user_preference` does not change what a query for another key finds. -/
theorem DB.find?_upsertUserRows_other (rows : List UserPreferenceRow) (p v u q w : String)
    (hne : ¬ (q = p ∧ w = u)) :
    (DB.upsertUserRows rows p v u).find?
        (fun r => decide (r.preference_id = q ∧ r.user_id = w)) =
      rows.find? (fun r => decide (r.preference_id = q ∧ r.user_id = w)) := by
  unfold DB.upsertUserRows
  split_ifs with hany
  · clear hany
    induction rows with
    | nil => rfl
    | cons a t ih =>
      rw [List.map_cons]
      by_cases ha : a.preference_id = p ∧ a.user_id = u
      · have h1 : ¬ (a.preference_id = q ∧ a.user_id = w) := by
          rintro ⟨h1, h2⟩
          exact hne ⟨h1 ▸ ha.1, h2 ▸ ha.2⟩
        rw [if_pos ha, List.find?_cons_of_neg _ (by simpa using h1),
          List.find?_cons_of_neg _ (by simpa using h1), ih]
      · rw [if_neg ha]
        by_cases hq : a.preference_id = q ∧ a.user_id = w
        · rw [List.find?_cons_of_pos _ (by simpa using hq),
            List.find?_cons_of_pos _ (by simpa using hq)]
        · rw [List.find?_cons_of_neg _ (by simpa using hq),
            List.find?_cons_of_neg _ (by simpa using hq), ih]
  · rw [List.find?_append]
    have : [UserPreferenceRow.mk p v u].find?
        (fun r => decide (r.preference_id = q ∧ r.user_id = w)) = none := by
      rw [List.find?_cons_of_neg _ (by
        simp only [decide_eq_true_eq]
        rintro ⟨h1, h2⟩
        exact hne ⟨h1.symm, h2.symm⟩)]
      rfl
    rw [this]
    simp

/-- The upsert on `user_preference` leaves the rows of all other keys as they are, in their order. -/
theorem DB.filter_upsertUserRows_other (rows : List UserPreferenceRow) (p v u : String) :
    (DB.upsertUserRows rows p v u).filter
        (fun r => decide (¬ (r.preference_id = p ∧ r.user_id = u))) =
      rows.filter (fun r => decide (¬ (r.preference_id = p ∧ r.user_id = u))) := by
  unfold DB.upsertUserRows
  split_ifs with hany
  · clear hany
    induction rows with
    | nil => rfl
    | cons a t ih =>
      rw [List.map_cons]
      by_cases ha : a.preference_id = p ∧ a.user_id = u
      · have hn : ¬ (decide (¬ (a.preference_id = p ∧ a.user_id = u)) = true) := by
          rw [decide_eq_true_eq]
          exact not_not.mpr ha
        rw [if_pos ha, List.filter_cons, List.filter_cons, if_neg hn, if_neg hn, ih]
      · have hy : decide (¬ (a.preference_id = p ∧ a.user_id = u)) = true :=
          decide_eq_true ha
        rw [if_neg ha, List.filter_cons, List.filter_cons, if_pos hy, if_pos hy, ih]
  · rw [List.filter_append]
    simp

/-- After the upsert on `user_preference`, the query for the written key finds the written value. -/
theorem DB.find?_upsertUserRows_self (rows : List UserPreferenceRow) (p v u : String) :
    (DB.upsertUserRows rows p v u).find?
        (fun r => decide (r.preference_id = p ∧ r.user_id = u)) = some ⟨p, v, u⟩ := by
  unfold DB.upsertUserRows
  split_ifs with hany
  · induction rows with
    | nil => simp at hany
    | cons a t ih =>
      rw [List.map_cons]
      by_cases ha : a.preference_id = p ∧ a.user_id = u
      · rw [if_pos ha, List.find?_cons_of_pos _ (by simpa using ha)]
        obtain ⟨i, w, k⟩ := a
        simp only at ha
        simp [ha.1, ha.2]
      · rw [if_neg ha, List.find?_cons_of_neg _ (by simpa using ha)]
        apply ih
        rw [List.any_cons] at hany
        simpa [ha] using hany
  · have hnone : rows.find? (fun r => decide (r.preference_id = p ∧ r.user_id = u)) = none := by
      apply find?_none_of_forall
      intro y hy
      by_contra hc
      apply hany
      rw [List.any_eq_true]
      exact ⟨y, hy, by simpa using hc⟩
    rw [List.find?_append, hnone]
    simp

/-- After the upsert on `org_preference`, the query for the written key finds the written value. -/
theorem DB.find?_upsertOrgRows_self (rows : List OrgPreferenceRow) (p v o : String) :
    (DB.upsertOrgRows rows p v o).find?
        (fun r => decide (r.preference_id = p ∧ r.org_id = o)) = some ⟨p, v, o⟩ := by
  unfold DB.upsertOrgRows
  split_ifs with hany
  · induction rows with
    | nil => simp at hany
    | cons a t ih =>
      rw [List.map_cons]
      by_cases ha : a.preference_id = p ∧ a.org_id = o
      · rw [if_pos ha, List.find?_cons_of_pos _ (by simpa using ha)]
        obtain ⟨i, w, k⟩ := a
        simp only at ha
        simp [ha.1, ha.2]
      · rw [if_neg ha, List.find?_cons_of_neg _ (by simpa using ha)]
        apply ih
        rw [List.any_cons] at hany
        simpa [ha] using hany
  · have hnone : rows.find? (fun r => decide (r.preference_id = p ∧ r.org_id = o)) = none := by
      apply find?_none_of_forall
      intro y hy
      by_contra hc
      apply hany
      rw [List.any_eq_true]
      exact ⟨y, hy, by simpa using hc⟩
    rw [List.find?_append, hnone]
    simp

/-- `GetUserPreference` reads the database only through its three queries. -/
theorem GetUserPreference_congr {db db2 : DB} {user : User} {q : String}
    (h1 : db2.getUserPreferenceKV q user.Id = db.getUserPreferenceKV q user.Id)
    (h2 : db2.getOrgPreferenceKV q user.OrgId = db.getOrgPreferenceKV q user.OrgId)
    (h3 : db2.getPreference colsUserOrgDefault q = db.getPreference colsUserOrgDefault q) :
    GetUserPreference db2 user q = GetUserPreference db user q := by
  simp only [GetUserPreference, h1, h2, h3]

/-! ## Lemmas on the order and the end of the recursion -/

/-- The loop has no result when the recursive call for one of the visited groups has none. -/
theorem buildGroupTreeLoop_none (recur : String → Option (List AllPreferenceResponse))
    (parentID : String) (m : GoMap (Option (List Preferences))) (g : PreferenceGroup)
    (hpar : g.ParentGroup = parentID) (hrec : recur g.Id = none)
    (gs : List PreferenceGroup) (hg : g ∈ gs) (tree : List AllPreferenceResponse) :
    buildGroupTreeLoop recur parentID m gs tree = none := by
  induction gs generalizing tree with
  | nil => cases hg
  | cons a rest ih =>
    rcases List.mem_cons.mp hg with h | h
    · subst h
      simp only [buildGroupTreeLoop, if_pos hpar, hrec]
    · by_cases ha : a.ParentGroup = parentID
      · simp only [buildGroupTreeLoop, if_pos ha]
        cases hr : recur a.Id with
        | none => rfl
        | some children =>
          simp only
          split_ifs
          · exact ih h _
          · exact ih h _
      · simp only [buildGroupTreeLoop, if_neg ha]
        exact ih h _

/-- A group that is its own parent: `buildGroupTree` on its id has no result at any depth bound. -/
theorem buildGroupTree_self_parent (groups : List PreferenceGroup)
    (m : GoMap (Option (List Preferences))) (parentID : String) (g : PreferenceGroup)
    (hg : g ∈ groups) (hid : g.Id = parentID) (hpar : g.ParentGroup = parentID)
    (depth : Nat) : buildGroupTree depth groups parentID m = none := by
  induction depth with
  | zero => rfl
  | succ d ih =>
    simp only [buildGroupTree]
    exact buildGroupTreeLoop_none _ parentID m g hpar (by rw [hid]; exact ih) groups hg []

/-- When the loop has a result, every recursive call it made had one. -/
theorem buildGroupTreeLoop_some_recur (recur : String → Option (List AllPreferenceResponse))
    (parentID : String) (m : GoMap (Option (List Preferences)))
    (gs : List PreferenceGroup) (tree t : List AllPreferenceResponse)
    (h : buildGroupTreeLoop recur parentID m gs tree = some t) :
    ∀ g ∈ gs, g.ParentGroup = parentID → ∃ c, recur g.Id = some c := by
  intro g hg hpar
  cases hr : recur g.Id with
  | some c => exact ⟨c, rfl⟩
  | none =>
    rw [buildGroupTreeLoop_none recur parentID m g hpar hr gs hg tree] at h
    cases h

/-- Keeping fewer elements of a list, with the same images, gives a subsequence. -/
theorem sublist_filterMap_of_imp {α β : Type} (f g : α → Option β) (l : List α)
    (h : ∀ x b, f x = some b → g x = some b) :
    List.Sublist (l.filterMap f) (l.filterMap g) := by
  induction l with
  | nil => exact List.Sublist.slnil
  | cons a t ih =>
    cases hf : f a with
    | none =>
      rw [List.filterMap_cons_none hf]
      cases hg : g a with
      | none => rw [List.filterMap_cons_none hg]; exact ih
      | some b => rw [List.filterMap_cons_some hg]; exact List.Sublist.cons b ih
    | some b =>
      rw [List.filterMap_cons_some hf, List.filterMap_cons_some (h a b hf)]
      exact List.Sublist.cons₂ b ih

/-- A node kept by the loop body is the node of a group below `parentID`. -/
theorem keptNode_some {kids : String → List AllPreferenceResponse} {parentID : String}
    {m : GoMap (Option (List Preferences))} {g : PreferenceGroup} {n : AllPreferenceResponse}
    (h : keptNode kids parentID m g = some n) :
    g.ParentGroup = parentID ∧
    n = AllPreferenceResponse.mk g.Id g.Name (nodePreferences m g.Id) (kids g.Id) := by
  by_cases h1 : g.ParentGroup = parentID
  · by_cases h2 : (kids g.Id).length = 0 ∧ nodePreferences m g.Id = none
    · simp [keptNode, h1, AllPreferenceResponse.Preferences, h2] at h
    · simp only [keptNode, if_pos h1, AllPreferenceResponse.Preferences, if_neg h2] at h
      exact ⟨h1, (Option.some.inj h).symm⟩
  · simp [keptNode, h1] at h

/-- The ids below `parentID`, written with `filterMap`. -/
theorem childIds_eq_filterMap (groups : List PreferenceGroup) (parentID : String) :
    childIds groups parentID =
      groups.filterMap (fun g => if g.ParentGroup = parentID then some g.Id else none) := by
  unfold childIds
  induction groups with
  | nil => rfl
  | cons a t iht =>
    by_cases ha : a.ParentGroup = parentID
    · simp [List.filter_cons, ha, iht]
    · simp [List.filter_cons, ha, iht]

/-- Every tree that `buildGroupTree` returns keeps the order of the group
list, at every level. -/
theorem buildGroupTree_order (groups : List PreferenceGroup)
    (m : GoMap (Option (List Preferences))) (depth : Nat) :
    ∀ (parentID : String) (t : List AllPreferenceResponse),
      buildGroupTree depth groups parentID m = some t → OrderPreserved groups parentID t := by
  induction depth with
  | zero => intro parentID t h; simp [buildGroupTree] at h
  | succ d ih =>
    intro parentID t h
    simp only [buildGroupTree] at h
    have hrec := buildGroupTreeLoop_some_recur _ parentID m groups [] t h
    have hrec2 : ∀ g ∈ groups, g.ParentGroup = parentID →
        buildGroupTree d groups g.Id m = some ((buildGroupTree d groups g.Id m).getD []) := by
      intro g hg hpar
      obtain ⟨c, hc⟩ := hrec g hg hpar
      simp [hc]
    rw [buildGroupTreeLoop_eq _ (fun id => (buildGroupTree d groups id m).getD [])
      parentID m groups hrec2 []] at h
    simp only [List.nil_append, Option.some.injEq] at h
    subst h
    refine OrderPreserved.intro _ _ ?_ ?_
    · rw [List.map_filterMap]
      rw [childIds_eq_filterMap]
      apply sublist_filterMap_of_imp
      intro x b hx
      cases hk : keptNode (fun id => (buildGroupTree d groups id m).getD []) parentID m x with
      | none => simp [hk] at hx
      | some n =>
        obtain ⟨h1, h2⟩ := keptNode_some hk
        simp only [hk, Option.map_some'] at hx
        rw [if_pos h1, ← Option.some.inj hx, h2]
        rfl
    · intro n hn
      rw [List.mem_filterMap] at hn
      obtain ⟨g, hg, hk⟩ := hn
      obtain ⟨h1, h2⟩ := keptNode_some hk
      subst h2
      simp only [AllPreferenceResponse.GroupId, AllPreferenceResponse.ChildGroup]
      obtain ⟨c, hc⟩ := hrec g hg h1
      simp only [hc, Option.getD_some]
      exact ih g.Id c hc

/-! ## Lemmas on the bulk listing -/

/-- Without a definition enabled for the org scope, `GetAllOrgPreferences` returns `nil, nil`. -/
theorem GetAllOrgPreferences_none_of_no_definition (depth : Nat) (db : DB) (user : User)
    (hsel : db.fails Stmt.selectPreference = false)
    (hno : ∀ d ∈ db.preference, d.OrgScope ≠ 1) :
    GetAllOrgPreferences depth db user = some (Except.ok none) := by
  have hfil : db.preference.filter (fun d => decide (d.OrgScope = 1)) = [] := by
    rw [List.filter_eq_nil_iff]
    intro d hd
    simpa using hno d hd
  simp [GetAllOrgPreferences, DB.select, hsel, hfil]

/-- With a definition enabled for the org scope and succeeding reads, `GetAllOrgPreferences` returns the tree that `buildGroupTree` builds from the root. -/
theorem GetAllOrgPreferences_tree_of_definition (db : DB) (user : User)
    (hsel : db.fails Stmt.selectPreference = false)
    (horg : db.fails Stmt.selectOrgPreference = false)
    (hgrp : db.fails Stmt.selectPreferenceGroup = false)
    (hex : ∃ d ∈ db.preference, d.OrgScope = 1) :
    ∀ depth, GetAllOrgPreferences depth db user =
      (buildGroupTree depth db.preference_group "" (orgListingMap db user)).map
        (fun t => Except.ok (some t)) := by
  have hfil : (db.preference.filter (fun d => decide (d.OrgScope = 1))).length ≠ 0 := by
    obtain ⟨d, hd, ho⟩ := hex
    have : d ∈ db.preference.filter (fun d => decide (d.OrgScope = 1)) := by
      rw [List.mem_filter]
      exact ⟨hd, by simpa using ho⟩
    intro h0
    rw [List.length_eq_zero] at h0
    rw [h0] at this
    cases this
  intro depth
  simp only [GetAllOrgPreferences, DB.select, hsel, horg, hgrp, List.map_id', if_neg hfil,
    List.filter_true, Bool.false_eq_true, if_false, orgListingMap]
  cases buildGroupTree depth db.preference_group "" _ <;> rfl

/-- Without a definition enabled for the user scope, `GetAllUserPreferences` returns `nil, nil`. -/
theorem GetAllUserPreferences_none_of_no_definition (depth : Nat) (db : DB) (user : User)
    (hsel : db.fails Stmt.selectPreference = false)
    (hno : ∀ d ∈ db.preference, d.UserScope ≠ 1) :
    GetAllUserPreferences depth db user = some (Except.ok none) := by
  have hfil : db.preference.filter (fun d => decide (d.UserScope = 1)) = [] := by
    rw [List.filter_eq_nil_iff]
    intro d hd
    simpa using hno d hd
  simp [GetAllUserPreferences, DB.select, hsel, hfil]

/-- With a definition enabled for the user scope and succeeding reads, `GetAllUserPreferences` returns the tree that `buildGroupTree` builds from the root. -/
theorem GetAllUserPreferences_tree_of_definition (db : DB) (user : User)
    (hsel : db.fails Stmt.selectPreference = false)
    (horg : db.fails Stmt.selectOrgPreference = false)
    (husr : db.fails Stmt.selectUserPreference = false)
    (hgrp : db.fails Stmt.selectPreferenceGroup = false)
    (hex : ∃ d ∈ db.preference, d.UserScope = 1) :
    ∀ depth, GetAllUserPreferences depth db user =
      (buildGroupTree depth db.preference_group "" (userListingMap db user)).map
        (fun t => Except.ok (some t)) := by
  have hfil : (db.preference.filter (fun d => decide (d.UserScope = 1))).length ≠ 0 := by
    obtain ⟨d, hd, ho⟩ := hex
    have : d ∈ db.preference.filter (fun d => decide (d.UserScope = 1)) := by
      rw [List.mem_filter]
      exact ⟨hd, by simpa using ho⟩
    intro h0
    rw [List.length_eq_zero] at h0
    rw [h0] at this
    cases this
  intro depth
  simp only [GetAllUserPreferences, DB.select, hsel, horg, husr, hgrp, List.map_id',
    if_neg hfil, List.filter_true, Bool.false_eq_true, if_false, userListingMap]
  cases buildGroupTree depth db.preference_group "" _ <;> rfl

/-! ## Lemmas on the bootstrapper -/

/-- The group seeding loop, storage calls succeeding: it appends seed groups whose id was absent, and afterwards every seed id is present. -/
theorem seedPreferenceGroups_spec (seeds : List PreferenceGroup) :
    ∀ db : DB, db.fails Stmt.selectPreferenceGroup = false →
      db.fails Stmt.insertPreferenceGroup = false →
      ∃ added : List PreferenceGroup,
        seedPreferenceGroups db seeds =
          (none, { db with preference_group := (db.preference_group ++ added) }) ∧
        (∀ g ∈ added, g ∈ seeds ∧ ∀ g0 ∈ db.preference_group, g0.Id ≠ g.Id) ∧
        (∀ s ∈ seeds, ∃ g ∈ db.preference_group ++ added, g.Id = s.Id) := by
  induction seeds with
  | nil =>
    intro db _ _
    exact ⟨[], by simp [seedPreferenceGroups], by simp, by simp⟩
  | cons s rest ih =>
    intro db hsel hins
    cases hfind : db.preference_group.find? (fun g => decide (g.Id = s.Id)) with
    | some g0 =>
      obtain ⟨added, h1, h2, h3⟩ := ih db hsel hins
      refine ⟨added, ?_, ?_, ?_⟩
      · simp only [seedPreferenceGroups, DB.getPreferenceGroupId, DB.get, hsel, hfind]
        exact h1
      · intro g hg
        exact ⟨List.mem_cons_of_mem _ (h2 g hg).1, (h2 g hg).2⟩
      · intro x hx
        rcases List.mem_cons.mp hx with h | h
        · subst h
          exact ⟨g0, List.mem_append_left _ (List.mem_of_find?_eq_some hfind),
            by simpa using List.find?_some hfind⟩
        · exact h3 x h
    | none =>
      have hsel1 : DB.fails { db with preference_group := (db.preference_group ++ [s]) }
          Stmt.selectPreferenceGroup = false := hsel
      have hins1 : DB.fails { db with preference_group := (db.preference_group ++ [s]) }
          Stmt.insertPreferenceGroup = false := hins
      obtain ⟨added, h1, h2, h3⟩ := ih _ hsel1 hins1
      refine ⟨s :: added, ?_, ?_, ?_⟩
      · simp only [seedPreferenceGroups, DB.getPreferenceGroupId, DB.get, hsel, hfind,
          DB.exec, hins]
        simp only [Bool.false_eq_true, if_false]
        rw [h1]
        simp
      · intro g hg
        rcases List.mem_cons.mp hg with h | h
        · subst h
          refine ⟨List.mem_cons_self _ _, ?_⟩
          intro g0 hg0 heq
          have := List.find?_eq_none.mp hfind g0 hg0
          simp [heq] at this
        · refine ⟨List.mem_cons_of_mem _ (h2 g h).1, ?_⟩
          intro g0 hg0
          exact (h2 g h).2 g0 (List.mem_append_left _ hg0)
      · intro x hx
        rcases List.mem_cons.mp hx with h | h
        · subst h
          exact ⟨x, by simp, rfl⟩
        · obtain ⟨g, hg, hgid⟩ := h3 x h
          exact ⟨g, by simpa using hg, hgid⟩

/-- The group seeding loop changes nothing when every seed id is present. -/
theorem seedPreferenceGroups_present (seeds : List PreferenceGroup) (db : DB)
    (hsel : db.fails Stmt.selectPreferenceGroup = false)
    (hall : ∀ s ∈ seeds, ∃ g ∈ db.preference_group, g.Id = s.Id) :
    seedPreferenceGroups db seeds = (none, db) := by
  induction seeds with
  | nil => rfl
  | cons s rest ih =>
    obtain ⟨g, hg, hgid⟩ := hall s (List.mem_cons_self _ _)
    cases hfind : db.preference_group.find? (fun g => decide (g.Id = s.Id)) with
    | none =>
      have := List.find?_eq_none.mp hfind g hg
      simp [hgid] at this
    | some g0 =>
      simp only [seedPreferenceGroups, DB.getPreferenceGroupId, DB.get, hsel, hfind]
      exact ih (fun x hx => hall x (List.mem_cons_of_mem _ hx))

/-- The preference seeding loop, storage calls succeeding: it appends seed definitions whose id was absent, and afterwards every seed id is present. -/
theorem seedPreferences_spec (seeds : List Preference) :
    ∀ db : DB, db.fails Stmt.selectPreference = false →
      db.fails Stmt.insertPreference = false →
      ∃ added : List Preference,
        seedPreferences db seeds =
          (none, { db with preference := (db.preference ++ added) }) ∧
        (∀ d ∈ added, d ∈ seeds ∧ ∀ d0 ∈ db.preference, d0.Id ≠ d.Id) ∧
        (∀ s ∈ seeds, ∃ d ∈ db.preference ++ added, d.Id = s.Id) := by
  induction seeds with
  | nil =>
    intro db _ _
    exact ⟨[], by simp [seedPreferences], by simp, by simp⟩
  | cons s rest ih =>
    intro db hsel hins
    cases hfind : db.preference.find? (fun d => decide (d.Id = s.Id)) with
    | some d0 =>
      obtain ⟨added, h1, h2, h3⟩ := ih db hsel hins
      refine ⟨added, ?_, ?_, ?_⟩
      · simp only [seedPreferences, DB.getPreference, DB.get, hsel, hfind]
        exact h1
      · intro d hd
        exact ⟨List.mem_cons_of_mem _ (h2 d hd).1, (h2 d hd).2⟩
      · intro x hx
        rcases List.mem_cons.mp hx with h | h
        · subst h
          exact ⟨d0, List.mem_append_left _ (List.mem_of_find?_eq_some hfind),
            by simpa using List.find?_some hfind⟩
        · exact h3 x h
    | none =>
      have hsel1 : DB.fails { db with preference := (db.preference ++ [s]) }
          Stmt.selectPreference = false := hsel
      have hins1 : DB.fails { db with preference := (db.preference ++ [s]) }
          Stmt.insertPreference = false := hins
      obtain ⟨added, h1, h2, h3⟩ := ih _ hsel1 hins1
      refine ⟨s :: added, ?_, ?_, ?_⟩
      · simp only [seedPreferences, DB.getPreference, DB.get, hsel, hfind, DB.exec, hins]
        simp only [Bool.false_eq_true, if_false]
        rw [h1]
        simp
      · intro d hd
        rcases List.mem_cons.mp hd with h | h
        · subst h
          refine ⟨List.mem_cons_self _ _, ?_⟩
          intro d0 hd0 heq
          have := List.find?_eq_none.mp hfind d0 hd0
          simp [heq] at this
        · refine ⟨List.mem_cons_of_mem _ (h2 d h).1, ?_⟩
          intro d0 hd0
          exact (h2 d h).2 d0 (List.mem_append_left _ hd0)
      · intro x hx
        rcases List.mem_cons.mp hx with h | h
        · subst h
          exact ⟨x, by simp, rfl⟩
        · obtain ⟨d, hd, hdid⟩ := h3 x h
          exact ⟨d, by simpa using hd, hdid⟩

/-- The preference seeding loop changes nothing when every seed id is present. -/
theorem seedPreferences_present (seeds : List Preference) (db : DB)
    (hsel : db.fails Stmt.selectPreference = false)
    (hall : ∀ s ∈ seeds, ∃ d ∈ db.preference, d.Id = s.Id) :
    seedPreferences db seeds = (none, db) := by
  induction seeds with
  | nil => rfl
  | cons s rest ih =>
    obtain ⟨d, hd, hdid⟩ := hall s (List.mem_cons_self _ _)
    cases hfind : db.preference.find? (fun d => decide (d.Id = s.Id)) with
    | none =>
      have := List.find?_eq_none.mp hfind d hd
      simp [hdid] at this
    | some d0 =>
      simp only [seedPreferences, DB.getPreference, DB.get, hsel, hfind]
      exact ih (fun x hx => hall x (List.mem_cons_of_mem _ hx))

/-- The result of `InitDB` when every statement succeeds, from the results of its two seeding loops. -/
theorem InitDB_of_seeded (db db1 db2 : DB) (gs : List PreferenceGroup) (ps : List Preference)
    (hok : db.BootstrapSucceeds) (hf1 : db1.failing = db.failing)
    (hf2 : db2.failing = db.failing)
    (h1 : seedPreferenceGroups db gs = (none, db1))
    (h2 : seedPreferences db1 ps = (none, db2)) :
    InitDB none db (SeedFile.records gs) (SeedFile.records ps) = (none, db2) := by
  obtain ⟨c1, -, -, c2, -, -, c3, c4⟩ := hok
  have e1 : db.exec Stmt.createPreferenceGroupTable db = (none, db) := by
    simp [DB.exec, c1]
  have e2 : db1.exec Stmt.createPreferenceTable db1 = (none, db1) := by
    simp [DB.exec, DB.fails, hf1] at c2 ⊢
    exact c2
  have e3 : db2.exec Stmt.createUserPreferenceTable db2 = (none, db2) := by
    simp [DB.exec, DB.fails, hf2] at c3 ⊢
    exact c3
  have e4 : db2.exec Stmt.createOrgPreferenceTable db2 = (none, db2) := by
    simp [DB.exec, DB.fails, hf2] at c4 ⊢
    exact c4
  simp only [InitDB, e1, h1, e2, h2, e3, e4]

/-! ## The claims -/

/-- Claim C1. For every preference id `p` and every caller, in a database
that respects its primary keys, whose value rows carry non-empty preference ids
(as every row the writers store) and whose reads succeed: when the definition
of `p` has user-scope flag 1 and org-scope flag 1, a user row `(p, user.Id)` with
value `vu` and an org row `(p, user.OrgId)` with value `vo` are stored,
`GetUserPreference` returns exactly `{p, vu}`, whatever `vo` and the default
are. -/
theorem getUserPreference_user_value_wins (db : DB) (user : User) (p vu vo : String)
    (d : Preference) (hwf : db.WellFormed) (hkeys : db.ValueKeysNonEmpty)
    (hreads : db.ReadsSucceed)
    (hd : d ∈ db.preference) (hid : d.Id = p) (hu : d.UserScope = 1) (ho : d.OrgScope = 1)
    (hur : UserPreferenceRow.mk p vu user.Id ∈ db.user_preference)
    (hor : OrgPreferenceRow.mk p vo user.OrgId ∈ db.org_preference) :
    GetUserPreference db user p = Except.ok ⟨p, vu⟩ := by
  have hp : p ≠ "" := hkeys.1 _ hur
  subst hid
  simp [GetUserPreference, DB.getUserPreferenceKV_row hwf.2.2.1 hreads.1 hur,
    DB.getOrgPreferenceKV_row hwf.2.2.2 hreads.2.1 hor,
    DB.getPreference_row colsUserOrgDefault hwf.2.1 hreads.2.2 hd,
    GetResult.scanInto, colsUserOrgDefault, hu, ho, hp]

/-- Claim C1, witness: preference `p1` with user value `vu` and org value `vo`. -/
theorem getUserPreference_user_value_wins_witness :
    GetUserPreference bothRowsDB sampleUser "p1" = Except.ok ⟨"p1", "vu"⟩ :=
  getUserPreference_user_value_wins bothRowsDB sampleUser "p1" "vu" "vo" sampleDef
    (by decide) (by decide) (by decide) (by decide) rfl rfl rfl (by decide) (by decide)

/-- Claim C2. For every preference id `p` and caller, in a database that
respects its primary keys and whose reads succeed, with no user row
`(p, user.Id)` and no org row `(p, user.OrgId)`: if the definition of `p` has
user-scope flag 1 then `GetUserPreference` returns `{p, DefaultValue}`, and if it
has org-scope flag 1 then `GetOrgPreference` returns `{p, DefaultValue}`. -/
theorem preference_without_rows_resolves_to_default (db : DB) (user : User) (p : String)
    (d : Preference) (hwf : db.WellFormed) (hreads : db.ReadsSucceed)
    (hd : d ∈ db.preference) (hid : d.Id = p)
    (hnoU : ∀ r ∈ db.user_preference, ¬ (r.preference_id = p ∧ r.user_id = user.Id))
    (hnoO : ∀ r ∈ db.org_preference, ¬ (r.preference_id = p ∧ r.org_id = user.OrgId)) :
    (d.UserScope = 1 → GetUserPreference db user p = Except.ok ⟨p, d.DefaultValue⟩) ∧
    (d.OrgScope = 1 → GetOrgPreference db user p = Except.ok ⟨p, d.DefaultValue⟩) := by
  subst hid
  constructor
  · intro hu
    simp [GetUserPreference, DB.getUserPreferenceKV_noRows hreads.1 hnoU,
      DB.getOrgPreferenceKV_noRows hreads.2.1 hnoO,
      DB.getPreference_row colsUserOrgDefault hwf.2.1 hreads.2.2 hd,
      GetResult.scanInto, colsUserOrgDefault, hu, PreferenceKV.zero]
  · intro ho
    simp [GetOrgPreference, DB.getOrgPreferenceKV_noRows hreads.2.1 hnoO,
      DB.getPreference_row colsOrgDefault hwf.2.1 hreads.2.2 hd,
      GetResult.scanInto, colsOrgDefault, ho, PreferenceKV.zero]

/-- Claim C2, witness: preference `p1` in the database without value rows. -/
theorem preference_without_rows_resolves_to_default_witness :
    GetUserPreference noRowsDB sampleUser "p1" = Except.ok ⟨"p1", "false"⟩ ∧
    GetOrgPreference noRowsDB sampleUser "p1" = Except.ok ⟨"p1", "false"⟩ :=
  have h := preference_without_rows_resolves_to_default noRowsDB sampleUser "p1" sampleDef
    (by decide) (by decide) (by decide) rfl (by decide) (by decide)
  ⟨h.1 rfl, h.2 rfl⟩

/-- Claim C3. For every preference id `p` whose definition exists with a
user-scope flag other than 1, every caller and every content of
`user_preference` and `org_preference` (primary keys respected, reads
succeeding), `GetUserPreference` returns no value and an error of kind
`Forbidden`. -/
theorem getUserPreference_forbidden_when_user_scope_disabled (db : DB) (user : User)
    (p : String) (d : Preference) (hwf : db.WellFormed) (hreads : db.ReadsSucceed)
    (hd : d ∈ db.preference) (hid : d.Id = p) (hu : d.UserScope ≠ 1) :
    errTyp (GetUserPreference db user p) = some ErrorType.ErrorForbidden :=
  getUserPreference_forbidden hwf hreads hd hid hu

/-- Claim C3, witness: preference `p3`, disabled for the user scope, for which
a user row is stored. -/
theorem getUserPreference_forbidden_when_user_scope_disabled_witness :
    errTyp (GetUserPreference bothRowsDB sampleUser "p3") = some ErrorType.ErrorForbidden :=
  getUserPreference_forbidden_when_user_scope_disabled bothRowsDB sampleUser "p3" orgOnlyDef
    (by decide) (by decide) (by decide) rfl (by decide)

/-- Claim C4, counterexample. For a caller whose org id is empty the claim
fails: the definition of `p2` exists with org-scope flag 0, and
`UpdateOrgPreference` returns `NotFound` (no org id found in the request), not
`Forbidden`; the check of the org id comes before the read of the definition. -/
theorem updateOrgPreference_empty_org_id_not_found :
    noRowsDB.WellFormed ∧ noRowsDB.failing = [] ∧
    userOnlyDef ∈ noRowsDB.preference ∧ userOnlyDef.OrgScope ≠ 1 ∧
    (UpdateOrgPreference noRowsDB ⟨"u1", ""⟩ ⟨userOnlyDef.Id, "v"⟩).1 =
      Except.error ⟨ErrorType.ErrorNotFound, "no org id found in the request"⟩ ∧
    errTyp (UpdateOrgPreference noRowsDB ⟨"u1", ""⟩ ⟨userOnlyDef.Id, "v"⟩).1 ≠
      some ErrorType.ErrorForbidden := by
  decide

/-- Claim C4, amended. For every caller, every value and every preference id
`p` whose definition exists with an org-scope flag other than 1 (primary keys
respected, the read of the definition succeeding): `UpdateOrgPreference`
returns `Forbidden` when `p` and the org id of the caller are both non-empty,
`NotFound` when one of them is empty, and in both cases the database after the
call is the database before it. -/
theorem updateOrgPreference_org_scope_disabled (db : DB) (user : User) (p v : String)
    (d : Preference) (hwf : db.WellFormed) (hsel : db.fails Stmt.selectPreference = false)
    (hd : d ∈ db.preference) (hid : d.Id = p) (ho : d.OrgScope ≠ 1) :
    (p ≠ "" ∧ user.OrgId ≠ "" →
      errTyp (UpdateOrgPreference db user ⟨p, v⟩).1 = some ErrorType.ErrorForbidden) ∧
    (p = "" ∨ user.OrgId = "" →
      errTyp (UpdateOrgPreference db user ⟨p, v⟩).1 = some ErrorType.ErrorNotFound) ∧
    (UpdateOrgPreference db user ⟨p, v⟩).2 = db := by
  subst hid
  have h3 := DB.getPreference_row colsOrg hwf.2.1 hsel hd
  by_cases hp : d.Id = ""
  · simp [UpdateOrgPreference, hp, errTyp]
  · by_cases hoid : user.OrgId = ""
    · simp [UpdateOrgPreference, hp, hoid, errTyp]
    · simp [UpdateOrgPreference, hp, hoid, errTyp, h3, colsOrg, ho]

/-- Claim C4, witness: preference `p2`, disabled for the org scope, written by
a caller of organization `o1`. -/
theorem updateOrgPreference_org_scope_disabled_witness :
    errTyp (UpdateOrgPreference bothRowsDB sampleUser ⟨"p2", "v"⟩).1 =
      some ErrorType.ErrorForbidden ∧
    (UpdateOrgPreference bothRowsDB sampleUser ⟨"p2", "v"⟩).2 = bothRowsDB :=
  have h := updateOrgPreference_org_scope_disabled bothRowsDB sampleUser "p2" "v" userOnlyDef
    (by decide) (by decide) (by decide) rfl (by decide)
  ⟨h.1 (by decide), h.2.2⟩

/-- Claim C5. `UpdateUserPreference` is idempotent: for every database that
respects its primary keys, caller, non-empty preference id `p` with user-scope
flag 1 and value `v` (the read of the definition and the upsert succeeding),
two calls in a row leave the same database as one call, and in that database
the rows of `user_preference` keyed `(p, user.Id)` are exactly one row, with
value `v`. -/
theorem updateUserPreference_idempotent (db : DB) (user : User) (p v : String)
    (d : Preference) (hwf : db.WellFormed) (hsel : db.fails Stmt.selectPreference = false)
    (hup : db.fails Stmt.upsertUserPreference = false) (hp : p ≠ "")
    (hd : d ∈ db.preference) (hid : d.Id = p) (hu : d.UserScope = 1) :
    (UpdateUserPreference (UpdateUserPreference db user ⟨p, v⟩).2 user ⟨p, v⟩).2 =
      (UpdateUserPreference db user ⟨p, v⟩).2 ∧
    (UpdateUserPreference db user ⟨p, v⟩).2.user_preference.filter
      (fun r => decide (r.preference_id = p ∧ r.user_id = user.Id)) = [⟨p, v, user.Id⟩] := by
  subst hid
  have hstep : ∀ db0 : DB, db0.preference = db.preference → db0.failing = db.failing →
      (UpdateUserPreference db0 user ⟨d.Id, v⟩).2 =
        { db0 with
          user_preference := (DB.upsertUserRows db0.user_preference d.Id v user.Id) } := by
    intro db0 hpref hfail
    have hsel0 : db0.fails Stmt.selectPreference = false := by
      simpa [DB.fails, hfail] using hsel
    have hup0 : db0.fails Stmt.upsertUserPreference = false := by
      simpa [DB.fails, hfail] using hup
    have hd0 : d ∈ db0.preference := hpref ▸ hd
    have h30 := DB.getPreference_row colsUser (hpref ▸ hwf.2.1) hsel0 hd0
    simp [UpdateUserPreference, hp, h30, colsUser, hu, DB.exec, hup0]
  rw [hstep db rfl rfl]
  refine ⟨?_, DB.upsertUserRows_filter _ _ _ _ hwf.2.2.1⟩
  rw [hstep { db with
    user_preference := (DB.upsertUserRows db.user_preference d.Id v user.Id) } rfl rfl]
  simp [DB.upsertUserRows_idem]

/-- Claim C5, witness: writing `x` to preference `p1` twice. -/
theorem updateUserPreference_idempotent_witness :
    (UpdateUserPreference (UpdateUserPreference bothRowsDB sampleUser ⟨"p1", "x"⟩).2
        sampleUser ⟨"p1", "x"⟩).2 =
      (UpdateUserPreference bothRowsDB sampleUser ⟨"p1", "x"⟩).2 ∧
    (UpdateUserPreference bothRowsDB sampleUser ⟨"p1", "x"⟩).2.user_preference.filter
      (fun r => decide (r.preference_id = "p1" ∧ r.user_id = "u1")) = [⟨"p1", "x", "u1"⟩] :=
  updateUserPreference_idempotent bothRowsDB sampleUser "p1" "x" sampleDef
    (by decide) (by decide) (by decide) (by decide) (by decide) rfl rfl

/-- An entry of the map after `m[key] = val` is an entry of the map before or
the written entry. -/
theorem GoMap.mem_set {β : Type} {m : GoMap β} {key : String} {val : β} {e : String × β}
    (h : e ∈ m.set key val) : e ∈ m ∨ e = (key, val) := by
  unfold GoMap.set at h
  split_ifs at h with hany
  · rw [List.mem_map] at h
    obtain ⟨e0, he0, he⟩ := h
    by_cases hc : e0.1 = key
    · rw [if_pos hc] at he
      exact Or.inr he.symm
    · rw [if_neg hc] at he
      exact Or.inl (he ▸ he0)
  · rw [List.mem_append] at h
    rcases h with h | h
    · exact Or.inl h
    · exact Or.inr (by simpa using h)

/-- Filing a preference under its group stores no empty list. -/
theorem addToGroup_noEmptyList {m : GoMap (Option (List Preferences))}
    (hne : NoEmptyList m) (preference : Preference) (preferenceWithValue : Preferences) :
    NoEmptyList (addToGroup m preference preferenceWithValue) := by
  intro e he
  unfold addToGroup at he
  cases hg : m.get preference.GroupId with
  | none =>
    rw [hg] at he
    rcases GoMap.mem_set he with h | h
    · exact hne e h
    · rw [h]; simp
  | some value =>
    rw [hg] at he
    rcases GoMap.mem_set he with h | h
    · exact hne e h
    · rw [h]; simp

/-- The map that a listing builds from its definitions stores no empty list. -/
theorem buildGroupPreferenceMap_noEmptyList (withValue : Preference → Preferences)
    (preferencesWithGroups : List Preference) :
    NoEmptyList (buildGroupPreferenceMap withValue preferencesWithGroups) := by
  unfold buildGroupPreferenceMap
  have hgen : ∀ (l : List Preference) (init : GoMap (Option (List Preferences))),
      NoEmptyList init →
      NoEmptyList (l.foldl (fun m preference => addToGroup m preference (withValue preference))
        init) := by
    intro l
    induction l with
    | nil => intro init h; exact h
    | cons a t ih =>
      intro init h
      exact ih _ (addToGroup_noEmptyList h a (withValue a))
  exact hgen _ [] (by intro e he; cases he)

/-- The map that `GetAllOrgPreferences` passes to `buildGroupTree` stores no
empty list. -/
theorem orgListingMap_noEmptyList (db : DB) (user : User) :
    NoEmptyList (orgListingMap db user) :=
  buildGroupPreferenceMap_noEmptyList _ _

/-- The map that `GetAllUserPreferences` passes to `buildGroupTree` stores no
empty list. -/
theorem userListingMap_noEmptyList (db : DB) (user : User) :
    NoEmptyList (userListingMap db user) :=
  buildGroupPreferenceMap_noEmptyList _ _

/-- Claim C7. Starting from a database whose only definition is
`{id: p1, default: false, org: 1, user: 1, group: g1}`, with no value rows and
no failing statement, for a caller with a non-empty org id (the user id may be
any): `GetUserPreference` for `p1` returns `{p1, false}`; `UpdateOrgPreference`
of `{p1, true}` succeeds and then `GetUserPreference` returns `{p1, true}`;
`UpdateUserPreference` of `{p1, false}` succeeds and then `GetUserPreference`
returns `{p1, false}`. -/
theorem example_scenario_p1 (user : User) (groups : List PreferenceGroup)
    (name dependsOn : String) (ho : user.OrgId ≠ "") :
    let db0 : DB := ⟨groups, [⟨"p1", name, "false", dependsOn, 1, 1, "g1"⟩], [], [], []⟩
    let step1 := UpdateOrgPreference db0 user ⟨"p1", "true"⟩
    let step2 := UpdateUserPreference step1.2 user ⟨"p1", "false"⟩
    GetUserPreference db0 user "p1" = Except.ok ⟨"p1", "false"⟩ ∧
    step1.1 = Except.ok ⟨"p1", "true"⟩ ∧
    GetUserPreference step1.2 user "p1" = Except.ok ⟨"p1", "true"⟩ ∧
    step2.1 = Except.ok ⟨"p1", "false"⟩ ∧
    GetUserPreference step2.2 user "p1" = Except.ok ⟨"p1", "false"⟩ := by
  simp [GetUserPreference, UpdateOrgPreference, UpdateUserPreference, DB.getPreference,
    DB.getUserPreferenceKV, DB.getOrgPreferenceKV, DB.get, DB.fails, DB.exec,
    DB.upsertOrgRows, DB.upsertUserRows, colsUser, colsOrg, colsUserOrgDefault,
    GetResult.scanInto, PreferenceKV.zero, ho]

/-- Claim C7, witness: the scenario for user `u1` of organization `o1`. -/
theorem example_scenario_p1_witness :
    GetUserPreference ⟨[], [⟨"p1", "Preference 1", "false", "", 1, 1, "g1"⟩], [], [], []⟩
      sampleUser "p1" = Except.ok ⟨"p1", "false"⟩ ∧
    GetUserPreference (UpdateOrgPreference
      ⟨[], [⟨"p1", "Preference 1", "false", "", 1, 1, "g1"⟩], [], [], []⟩
      sampleUser ⟨"p1", "true"⟩).2 sampleUser "p1" = Except.ok ⟨"p1", "true"⟩ ∧
    GetUserPreference (UpdateUserPreference (UpdateOrgPreference
      ⟨[], [⟨"p1", "Preference 1", "false", "", 1, 1, "g1"⟩], [], [], []⟩
      sampleUser ⟨"p1", "true"⟩).2 sampleUser ⟨"p1", "false"⟩).2 sampleUser "p1" =
      Except.ok ⟨"p1", "false"⟩ :=
  have h := example_scenario_p1 sampleUser [] "Preference 1" "" (by decide)
  ⟨h.1, h.2.2.1, h.2.2.2.2⟩

/-- Claim C8. `GetOrgPreference` is fully determined by the definition and the
org row of the caller: with primary keys respected, value rows carrying
non-empty preference ids (as every row the writers store) and both reads
succeeding, it returns `NotFound` if no definition of `p` exists, `Forbidden` if
the definition exists with an org-scope flag other than 1, and otherwise
succeeds with `{p, v}`, where `v` is the value of the org row `(p, user.OrgId)` if
that row exists and the default value of the definition otherwise. The rows of
`user_preference` and the user id of the caller never influence the result. -/
theorem getOrgPreference_determined (db : DB) (user : User) (p : String)
    (hwf : db.WellFormed) (hkeys : db.ValueKeysNonEmpty)
    (horg : db.fails Stmt.selectOrgPreference = false)
    (hsel : db.fails Stmt.selectPreference = false) :
    ((∀ d ∈ db.preference, d.Id ≠ p) →
      errTyp (GetOrgPreference db user p) = some ErrorType.ErrorNotFound) ∧
    (∀ d ∈ db.preference, d.Id = p → d.OrgScope ≠ 1 →
      errTyp (GetOrgPreference db user p) = some ErrorType.ErrorForbidden) ∧
    (∀ d ∈ db.preference, d.Id = p → d.OrgScope = 1 →
      (∀ vo, OrgPreferenceRow.mk p vo user.OrgId ∈ db.org_preference →
        GetOrgPreference db user p = Except.ok ⟨p, vo⟩) ∧
      ((∀ r ∈ db.org_preference, ¬ (r.preference_id = p ∧ r.org_id = user.OrgId)) →
        GetOrgPreference db user p = Except.ok ⟨p, d.DefaultValue⟩)) ∧
    (∀ (rows : List UserPreferenceRow) (uid : String),
      GetOrgPreference { db with user_preference := rows } ⟨uid, user.OrgId⟩ p =
        GetOrgPreference db user p) := by
  refine ⟨?_, ?_, ?_, ?_⟩
  · intro hno
    rcases DB.getOrgPreferenceKV_cases horg p user.OrgId with h1 | ⟨v1, h1⟩ <;>
    simp [GetOrgPreference, h1, DB.getPreference_noRows colsOrgDefault hsel hno, errTyp]
  · intro d hd hid ho
    subst hid
    rcases DB.getOrgPreferenceKV_cases horg d.Id user.OrgId with h1 | ⟨v1, h1⟩ <;>
    simp [GetOrgPreference, h1, DB.getPreference_row colsOrgDefault hwf.2.1 hsel hd,
      colsOrgDefault, ho, errTyp]
  · intro d hd hid ho
    subst hid
    constructor
    · intro vo hrow
      have hp : d.Id ≠ "" := hkeys.2 _ hrow
      simp [GetOrgPreference, DB.getOrgPreferenceKV_row hwf.2.2.2 horg hrow,
        DB.getPreference_row colsOrgDefault hwf.2.1 hsel hd,
        colsOrgDefault, ho, GetResult.scanInto, hp]
    · intro hno
      simp [GetOrgPreference, DB.getOrgPreferenceKV_noRows horg hno,
        DB.getPreference_row colsOrgDefault hwf.2.1 hsel hd,
        colsOrgDefault, ho, GetResult.scanInto, PreferenceKV.zero]
  · intro rows uid
    rfl

/-- Claim C8, witness: the four outcomes on the sample database. -/
theorem getOrgPreference_determined_witness :
    errTyp (GetOrgPreference bothRowsDB sampleUser "p9") = some ErrorType.ErrorNotFound ∧
    errTyp (GetOrgPreference bothRowsDB sampleUser "p2") = some ErrorType.ErrorForbidden ∧
    GetOrgPreference bothRowsDB sampleUser "p1" = Except.ok ⟨"p1", "vo"⟩ ∧
    GetOrgPreference bothRowsDB sampleUser "p3" = Except.ok ⟨"p3", "d3"⟩ :=
  have h := fun p => getOrgPreference_determined bothRowsDB sampleUser p
    (by decide) (by decide) (by decide) (by decide)
  ⟨(h "p9").1 (by decide),
   (h "p2").2.1 userOnlyDef (by decide) rfl (by decide),
   ((h "p1").2.2.1 sampleDef (by decide) rfl rfl).1 "vo" (by decide),
   ((h "p3").2.2.1 orgOnlyDef (by decide) rfl rfl).2 (by decide)⟩

/-- Claim C9. With primary keys respected and storage calls succeeding,
`UpdateUserPreference` classifies its outcome in this order: `NotFound` if the
preference id is empty or no definition with that id exists; `Forbidden` if
the definition exists with a user-scope flag other than 1; otherwise success
with `{PreferenceId, PreferenceValue}` as given in the request. Whenever the
result is an error (a failed storage call included) the database after the
call equals the database before it. -/
theorem updateUserPreference_outcome (db : DB) (user : User) (req : PreferenceKV)
    (hwf : db.WellFormed) (hsel : db.fails Stmt.selectPreference = false)
    (hup : db.fails Stmt.upsertUserPreference = false) :
    ((req.PreferenceId = "" ∨ ∀ d ∈ db.preference, d.Id ≠ req.PreferenceId) →
      errTyp (UpdateUserPreference db user req).1 = some ErrorType.ErrorNotFound) ∧
    (∀ d ∈ db.preference, req.PreferenceId ≠ "" → d.Id = req.PreferenceId →
      d.UserScope ≠ 1 →
      errTyp (UpdateUserPreference db user req).1 = some ErrorType.ErrorForbidden) ∧
    (∀ d ∈ db.preference, req.PreferenceId ≠ "" → d.Id = req.PreferenceId →
      d.UserScope = 1 →
      (UpdateUserPreference db user req).1 =
        Except.ok ⟨req.PreferenceId, req.PreferenceValue⟩) ∧
    (∀ e, (UpdateUserPreference db user req).1 = Except.error e →
      (UpdateUserPreference db user req).2 = db) := by
  refine ⟨?_, ?_, ?_, ?_⟩
  · rintro (hp | hno)
    · simp [UpdateUserPreference, hp, errTyp]
    · by_cases hp : req.PreferenceId = ""
      · simp [UpdateUserPreference, hp, errTyp]
      · simp [UpdateUserPreference, hp, errTyp, DB.getPreference_noRows colsUser hsel hno]
  · intro d hd hp hid hu
    have h3 := DB.getPreference_row colsUser hwf.2.1 hsel hd
    rw [hid] at h3
    simp [UpdateUserPreference, hp, errTyp, h3, colsUser, hu]
  · intro d hd hp hid hu
    have h3 := DB.getPreference_row colsUser hwf.2.1 hsel hd
    rw [hid] at h3
    simp [UpdateUserPreference, hp, h3, colsUser, hu, DB.exec, hup]
  · unfold UpdateUserPreference
    simp only []
    split_ifs with hp
    · intros; rfl
    · split
      · intros; rfl
      · intros; rfl
      · split_ifs with hu
        · intros; rfl
        · unfold DB.exec
          split_ifs with hf
          · intros; rfl
          · intro e he
            simp at he

/-- Claim C9, witness: the outcomes for an empty id, an unknown id, a
preference disabled for the user scope and an enabled one. -/
theorem updateUserPreference_outcome_witness :
    errTyp (UpdateUserPreference bothRowsDB sampleUser ⟨"", "x"⟩).1 =
      some ErrorType.ErrorNotFound ∧
    errTyp (UpdateUserPreference bothRowsDB sampleUser ⟨"p9", "x"⟩).1 =
      some ErrorType.ErrorNotFound ∧
    errTyp (UpdateUserPreference bothRowsDB sampleUser ⟨"p3", "x"⟩).1 =
      some ErrorType.ErrorForbidden ∧
    (UpdateUserPreference bothRowsDB sampleUser ⟨"p1", "x"⟩).1 = Except.ok ⟨"p1", "x"⟩ :=
  ⟨(updateUserPreference_outcome bothRowsDB sampleUser ⟨"", "x"⟩
      (by decide) (by decide) (by decide)).1 (Or.inl rfl),
   (updateUserPreference_outcome bothRowsDB sampleUser ⟨"p9", "x"⟩
      (by decide) (by decide) (by decide)).1 (Or.inr (by decide)),
   (updateUserPreference_outcome bothRowsDB sampleUser ⟨"p3", "x"⟩
      (by decide) (by decide) (by decide)).2.1 orgOnlyDef (by decide) (by decide) rfl
      (by decide),
   (updateUserPreference_outcome bothRowsDB sampleUser ⟨"p1", "x"⟩
      (by decide) (by decide) (by decide)).2.2.1 sampleDef (by decide) (by decide) rfl rfl⟩

/-- Claim C10. With primary keys respected and reads succeeding,
`GetUserPreference` returns `NotFound` if no definition of `p` exists, whatever
value rows are stored for `p`, and it succeeds with a result whose
`PreferenceId` equals `p` if and only if the definition of `p` exists with
user-scope flag 1. -/
theorem getUserPreference_defined_iff_allowed (db : DB) (user : User) (p : String)
    (hwf : db.WellFormed) (hreads : db.ReadsSucceed) :
    ((∀ d ∈ db.preference, d.Id ≠ p) →
      errTyp (GetUserPreference db user p) = some ErrorType.ErrorNotFound) ∧
    ((∃ kv, GetUserPreference db user p = Except.ok kv ∧ kv.PreferenceId = p) ↔
      ∃ d ∈ db.preference, d.Id = p ∧ d.UserScope = 1) := by
  have hnf : (∀ d ∈ db.preference, d.Id ≠ p) →
      errTyp (GetUserPreference db user p) = some ErrorType.ErrorNotFound := by
    intro hno
    rcases DB.getUserPreferenceKV_cases hreads.1 p user.Id with h1 | ⟨v1, h1⟩ <;>
    rcases DB.getOrgPreferenceKV_cases hreads.2.1 p user.OrgId with h2 | ⟨v2, h2⟩ <;>
    simp [GetUserPreference, h1, h2,
      DB.getPreference_noRows colsUserOrgDefault hreads.2.2 hno, errTyp]
  refine ⟨hnf, ?_, ?_⟩
  · rintro ⟨kv, hok, -⟩
    by_contra hcon
    have herr : ∃ t, errTyp (GetUserPreference db user p) = some t := by
      by_cases hex : ∃ d ∈ db.preference, d.Id = p
      · obtain ⟨d, hd, hid⟩ := hex
        have hu : d.UserScope ≠ 1 := fun hu => hcon ⟨d, hd, hid, hu⟩
        exact ⟨_, getUserPreference_forbidden hwf hreads hd hid hu⟩
      · exact ⟨_, hnf (fun d hd hid => hex ⟨d, hd, hid⟩)⟩
    obtain ⟨t, ht⟩ := herr
    rw [hok] at ht
    simp [errTyp] at ht
  · rintro ⟨d, hd, hid, hu⟩
    subst hid
    rcases DB.getUserPreferenceKV_cases hreads.1 d.Id user.Id with h1 | ⟨v1, h1⟩ <;>
    rcases DB.getOrgPreferenceKV_cases hreads.2.1 d.Id user.OrgId with h2 | ⟨v2, h2⟩ <;>
    simp [GetUserPreference, h1, h2,
      DB.getPreference_row colsUserOrgDefault hwf.2.1 hreads.2.2 hd,
      colsUserOrgDefault, hu, GetResult.scanInto, PreferenceKV.zero] <;>
    split_ifs <;> simp

/-- Claim C10, witness: the unknown id `p9`, for which value rows are stored,
and the enabled preference `p1`. -/
theorem getUserPreference_defined_iff_allowed_witness :
    errTyp (GetUserPreference orphanRowsDB sampleUser "p9") = some ErrorType.ErrorNotFound ∧
    ((∃ kv, GetUserPreference orphanRowsDB sampleUser "p1" = Except.ok kv ∧
        kv.PreferenceId = "p1") ↔
      ∃ d ∈ orphanRowsDB.preference, d.Id = "p1" ∧ d.UserScope = 1) :=
  ⟨(getUserPreference_defined_iff_allowed orphanRowsDB sampleUser "p9"
      (by decide) (by decide)).1 (by decide),
   (getUserPreference_defined_iff_allowed orphanRowsDB sampleUser "p1"
      (by decide) (by decide)).2⟩

/-- Claim C11. The writers preserve the scope invariant: for every database in
which every `user_preference` row refers to a definition with user-scope flag
1 and every `org_preference` row to a definition with org-scope flag 1, the
database after `UpdateUserPreference` and the database after
`UpdateOrgPreference`, for any caller and any request, whether the call
succeeds or fails, satisfy the same invariant. -/
theorem writers_preserve_scope_invariant (db : DB) (user : User) (reqU : PreferenceKV)
    (reqO : UpdateOrgPreferenceRequest) (hinv : ScopeInvariant db) :
    ScopeInvariant (UpdateUserPreference db user reqU).2 ∧
    ScopeInvariant (UpdateOrgPreference db user reqO).2 := by
  constructor
  · rcases UpdateUserPreference_db db user reqU with ⟨-, h⟩ | ⟨-, -, ⟨d, hd, hid, hu, -⟩, h⟩
    · rw [h]; exact hinv
    · rw [h]
      refine ⟨?_, hinv.2⟩
      intro r hr
      rcases DB.mem_upsertUserRows hr with hrp | hrm
      · exact ⟨d, hd, by rw [hid, hrp], hu⟩
      · exact hinv.1 r hrm
  · rcases UpdateOrgPreference_db db user reqO with ⟨-, h⟩ | ⟨-, -, -, ⟨d, hd, hid, hu, -⟩, h⟩
    · rw [h]; exact hinv
    · rw [h]
      refine ⟨hinv.1, ?_⟩
      intro r hr
      rcases DB.mem_upsertOrgRows hr with hrp | hrm
      · exact ⟨d, hd, by rw [hid, hrp], hu⟩
      · exact hinv.2 r hrm

/-- Claim C11, witness: a user write to `p1` and an org write to `p2` on the
database without value rows. -/
theorem writers_preserve_scope_invariant_witness :
    ScopeInvariant (UpdateUserPreference noRowsDB sampleUser ⟨"p1", "x"⟩).2 ∧
    ScopeInvariant (UpdateOrgPreference noRowsDB sampleUser ⟨"p2", "y"⟩).2 :=
  writers_preserve_scope_invariant noRowsDB sampleUser ⟨"p1", "x"⟩ ⟨"p2", "y"⟩ (by decide)

/-- Claim C12, the code at a failing input. Organization `o1` writes the empty
string as value of `p1` (the write succeeds and stores the row), and
`GetOrgPreference` returns that stored value. The tree of
`GetAllOrgPreferences` lists `p1` with the default value `false`, although the
org row exists: the listing takes a value equal to the empty string for an
absent one (model.go, line 440). -/
theorem getAllOrgPreferences_lists_default_for_empty_value :
    (UpdateOrgPreference listingDB sampleUser ⟨"p1", ""⟩).1 = Except.ok ⟨"p1", ""⟩ ∧
    OrgPreferenceRow.mk "p1" "" sampleUser.OrgId ∈ emptyOrgValueDB.org_preference ∧
    sampleDef.DefaultValue = "false" ∧
    GetOrgPreference emptyOrgValueDB sampleUser "p1" = Except.ok ⟨"p1", ""⟩ ∧
    ∀ depth, 2 ≤ depth →
      GetAllOrgPreferences depth emptyOrgValueDB sampleUser =
        some (Except.ok (some [AllPreferenceResponse.mk "g1" "Group 1"
          (some [{ toPreference := sampleDef, Value := "false" }]) []])) := by
  refine ⟨by decide, by decide, rfl, by decide, ?_⟩
  intro depth hd
  rw [GetAllOrgPreferences_tree_of_definition emptyOrgValueDB sampleUser (by decide)
    (by decide) (by decide) ⟨sampleDef, by decide, by decide⟩ depth]
  rw [buildGroupTree_mono emptyOrgValueDB.preference_group
    (orgListingMap emptyOrgValueDB sampleUser) hd "" _ rfl]
  rfl

/-- Claim C13, counterexample. All reads succeed and a definition with both
scope flags 1 exists, but the group table holds a group that is its own parent
at the root: neither listing has a result at any depth bound, so neither
returns a present tree. -/
theorem bulk_listing_no_result_on_self_parent_group :
    selfParentDB.failing = [] ∧
    (∃ d ∈ selfParentDB.preference, d.OrgScope = 1 ∧ d.UserScope = 1) ∧
    ∀ depth, GetAllOrgPreferences depth selfParentDB sampleUser = none ∧
      GetAllUserPreferences depth selfParentDB sampleUser = none := by
  refine ⟨rfl, ⟨sampleDef, by decide, by decide, by decide⟩, ?_⟩
  intro depth
  rw [GetAllOrgPreferences_tree_of_definition selfParentDB sampleUser (by decide)
    (by decide) (by decide) ⟨sampleDef, by decide, by decide⟩ depth,
    GetAllUserPreferences_tree_of_definition selfParentDB sampleUser (by decide)
    (by decide) (by decide) (by decide) ⟨sampleDef, by decide, by decide⟩ depth,
    buildGroupTree_self_parent selfParentDB.preference_group _ "" ⟨"", "Root", ""⟩
      (by decide) rfl rfl depth,
    buildGroupTree_self_parent selfParentDB.preference_group _ "" ⟨"", "Root", ""⟩
      (by decide) rfl rfl depth]
  exact ⟨rfl, rfl⟩

/-- Claim C13, amended. With all storage reads succeeding,
`GetAllOrgPreferences` and `GetAllUserPreferences` return `nil, nil` if and only
if no definition has the scope flag of that listing equal to 1; and when the
parent relation of the group table is acyclic and at least one such definition
exists, the result is a present tree with no error (which may be the empty
tree). -/
theorem bulk_listing_absent_iff_no_definition (db : DB) (user : User)
    (hsel : db.fails Stmt.selectPreference = false)
    (horg : db.fails Stmt.selectOrgPreference = false)
    (husr : db.fails Stmt.selectUserPreference = false)
    (hgrp : db.fails Stmt.selectPreferenceGroup = false) :
    (∀ depth,
      (GetAllOrgPreferences depth db user = some (Except.ok none) ↔
        ∀ d ∈ db.preference, d.OrgScope ≠ 1) ∧
      (GetAllUserPreferences depth db user = some (Except.ok none) ↔
        ∀ d ∈ db.preference, d.UserScope ≠ 1)) ∧
    (Acyclic db.preference_group → ∃ N, ∀ depth, N ≤ depth →
      ((∃ d ∈ db.preference, d.OrgScope = 1) →
        ∃ tree, GetAllOrgPreferences depth db user = some (Except.ok (some tree))) ∧
      ((∃ d ∈ db.preference, d.UserScope = 1) →
        ∃ tree, GetAllUserPreferences depth db user = some (Except.ok (some tree)))) := by
  constructor
  · intro depth
    constructor
    · constructor
      · intro h d hd ho
        rw [GetAllOrgPreferences_tree_of_definition db user hsel horg hgrp ⟨d, hd, ho⟩ depth] at h
        cases hb : buildGroupTree depth db.preference_group "" (orgListingMap db user) with
        | none => rw [hb] at h; cases h
        | some t => rw [hb] at h; cases h
      · exact GetAllOrgPreferences_none_of_no_definition depth db user hsel
    · constructor
      · intro h d hd ho
        rw [GetAllUserPreferences_tree_of_definition db user hsel horg husr hgrp
          ⟨d, hd, ho⟩ depth] at h
        cases hb : buildGroupTree depth db.preference_group "" (userListingMap db user) with
        | none => rw [hb] at h; cases h
        | some t => rw [hb] at h; cases h
      · exact GetAllUserPreferences_none_of_no_definition depth db user hsel
  · intro hacyc
    obtain ⟨N1, kids1, hk1⟩ := buildGroupTree_of_acyclic db.preference_group
      (orgListingMap db user) hacyc
    obtain ⟨N2, kids2, hk2⟩ := buildGroupTree_of_acyclic db.preference_group
      (userListingMap db user) hacyc
    refine ⟨max N1 N2, fun depth hd => ⟨?_, ?_⟩⟩
    · intro hex
      refine ⟨kids1 "", ?_⟩
      rw [GetAllOrgPreferences_tree_of_definition db user hsel horg hgrp hex depth,
        (hk1 depth (le_trans (le_max_left _ _) hd) "").1]
      rfl
    · intro hex
      refine ⟨kids2 "", ?_⟩
      rw [GetAllUserPreferences_tree_of_definition db user hsel horg husr hgrp hex depth,
        (hk2 depth (le_trans (le_max_right _ _) hd) "").1]
      rfl

/-- Claim C13, witness: a database without org-scoped definition, and the
database whose only definition lies in a group missing from the group table,
for which the org listing is the present empty tree. -/
theorem bulk_listing_absent_iff_no_definition_witness :
    (GetAllOrgPreferences 1 ⟨sampleGroups, [userOnlyDef], [], [], []⟩ sampleUser =
        some (Except.ok none) ↔
      ∀ d ∈ [userOnlyDef], d.OrgScope ≠ 1) ∧
    (∃ N, ∀ depth, N ≤ depth →
      ((∃ d ∈ noGroupDB.preference, d.OrgScope = 1) →
        ∃ tree, GetAllOrgPreferences depth noGroupDB sampleUser =
          some (Except.ok (some tree))) ∧
      ((∃ d ∈ noGroupDB.preference, d.UserScope = 1) →
        ∃ tree, GetAllUserPreferences depth noGroupDB sampleUser =
          some (Except.ok (some tree)))) ∧
    GetAllOrgPreferences 1 noGroupDB sampleUser = some (Except.ok (some [])) :=
  ⟨((bulk_listing_absent_iff_no_definition ⟨sampleGroups, [userOnlyDef], [], [], []⟩
      sampleUser (by decide) (by decide) (by decide) (by decide)).1 1).1,
   (bulk_listing_absent_iff_no_definition noGroupDB sampleUser
      (by decide) (by decide) (by decide) (by decide)).2 ⟨fun _ => 0, by decide⟩,
   rfl⟩

/-- Claim C14. For every acyclic group list, `parentID` and map,
`buildGroupTree` returns a tree at every large enough depth bound, and in that
tree the group ids of the nodes are a subsequence of the ids of the input
groups whose `ParentGroup` is `parentID`, and the same holds recursively for the
`ChildGroup` of every node with respect to the `GroupId` of the node. -/
theorem buildGroupTree_preserves_order (groups : List PreferenceGroup) (parentID : String)
    (m : GoMap (Option (List Preferences))) (hacyc : Acyclic groups) :
    ∃ N, ∀ depth, N ≤ depth →
      ∃ tree, buildGroupTree depth groups parentID m = some tree ∧
        OrderPreserved groups parentID tree := by
  obtain ⟨N, kids, hk⟩ := buildGroupTree_of_acyclic groups m hacyc
  exact ⟨N, fun depth hd => ⟨kids parentID, (hk depth hd parentID).1,
    buildGroupTree_order groups m depth parentID _ (hk depth hd parentID).1⟩⟩

/-- Claim C14, witness: the sample groups from the root. -/
theorem buildGroupTree_preserves_order_witness :
    ∃ N, ∀ depth, N ≤ depth →
      ∃ tree, buildGroupTree depth sampleGroups "" sampleGroupMap = some tree ∧
        OrderPreserved sampleGroups "" tree :=
  buildGroupTree_preserves_order sampleGroups "" sampleGroupMap
    ⟨fun s => if s = "" then 0 else if s = "g1" then 1 else 2, by decide⟩

/-- Claim C15. Bootstrap seeding is insert-if-absent and idempotent: for every
content of the tables and every seed lists, with all statements of `InitDB`
succeeding, `InitDB` returns no error, the tables `preference_group` and
`preference` afterwards are the tables before followed by seed records whose id
was absent before (so every row that existed before is unchanged, whatever a
seed record with the same id carries), every seed id is present, the value
tables are unchanged, and a second run with the same seed data returns the
database of the first run. -/
theorem initDB_seeding_insert_if_absent (db : DB) (groupSeed : List PreferenceGroup)
    (preferenceSeed : List Preference) (hok : db.BootstrapSucceeds) :
    ∃ (addedGroups : List PreferenceGroup) (addedPreferences : List Preference),
      InitDB none db (SeedFile.records groupSeed) (SeedFile.records preferenceSeed) =
        (none, { db with
          preference_group := (db.preference_group ++ addedGroups),
          preference := (db.preference ++ addedPreferences) }) ∧
      (∀ g ∈ addedGroups, g ∈ groupSeed ∧ ∀ g0 ∈ db.preference_group, g0.Id ≠ g.Id) ∧
      (∀ d ∈ addedPreferences, d ∈ preferenceSeed ∧ ∀ d0 ∈ db.preference, d0.Id ≠ d.Id) ∧
      (∀ s ∈ groupSeed, ∃ g ∈ db.preference_group ++ addedGroups, g.Id = s.Id) ∧
      (∀ s ∈ preferenceSeed, ∃ d ∈ db.preference ++ addedPreferences, d.Id = s.Id) ∧
      InitDB none
          (InitDB none db (SeedFile.records groupSeed) (SeedFile.records preferenceSeed)).2
          (SeedFile.records groupSeed) (SeedFile.records preferenceSeed) =
        (none,
          (InitDB none db (SeedFile.records groupSeed) (SeedFile.records preferenceSeed)).2) := by
  obtain ⟨addedG, g1, g2, g3⟩ := seedPreferenceGroups_spec groupSeed db hok.2.1 hok.2.2.1
  obtain ⟨addedP, p1, p2, p3⟩ := seedPreferences_spec preferenceSeed
    { db with preference_group := (db.preference_group ++ addedG) }
    hok.2.2.2.2.1 hok.2.2.2.2.2.1
  have hfirst := InitDB_of_seeded db
    { db with preference_group := (db.preference_group ++ addedG) }
    { db with preference_group := (db.preference_group ++ addedG),
              preference := (db.preference ++ addedP) }
    groupSeed preferenceSeed hok rfl rfl g1 p1
  refine ⟨addedG, addedP, hfirst, g2, p2, g3, p3, ?_⟩
  rw [hfirst]
  exact InitDB_of_seeded
    { db with preference_group := (db.preference_group ++ addedG),
              preference := (db.preference ++ addedP) }
    { db with preference_group := (db.preference_group ++ addedG),
              preference := (db.preference ++ addedP) }
    { db with preference_group := (db.preference_group ++ addedG),
              preference := (db.preference ++ addedP) }
    groupSeed preferenceSeed hok rfl rfl
    (seedPreferenceGroups_present groupSeed _ hok.2.1 g3)
    (seedPreferences_present preferenceSeed _ hok.2.2.2.2.1 p3)

/-- Claim C15, witness: a seed that carries other attributes for the stored
`p1` and the new definition `p7`. -/
theorem initDB_seeding_insert_if_absent_witness :
    (InitDB none noRowsDB (SeedFile.records sampleGroups)
        (SeedFile.records [⟨"p1", "Renamed", "true", "", 0, 0, "g2"⟩,
          ⟨"p7", "Preference 7", "seven", "", 1, 1, "g2"⟩])).2.preference =
      [sampleDef, userOnlyDef, orgOnlyDef, ⟨"p7", "Preference 7", "seven", "", 1, 1, "g2"⟩] ∧
    ∃ (addedGroups : List PreferenceGroup) (addedPreferences : List Preference),
      InitDB none noRowsDB (SeedFile.records sampleGroups)
          (SeedFile.records [⟨"p1", "Renamed", "true", "", 0, 0, "g2"⟩,
            ⟨"p7", "Preference 7", "seven", "", 1, 1, "g2"⟩]) =
        (none, { noRowsDB with
          preference_group := (noRowsDB.preference_group ++ addedGroups),
          preference := (noRowsDB.preference ++ addedPreferences) }) :=
  ⟨by decide,
   (initDB_seeding_insert_if_absent noRowsDB sampleGroups
      [⟨"p1", "Renamed", "true", "", 0, 0, "g2"⟩,
        ⟨"p7", "Preference 7", "seven", "", 1, 1, "g2"⟩] (by decide)).imp
    (fun _ h => h.imp (fun _ h2 => h2.1))⟩

/-- Claim C16. In `GetUserPreference` an org value is applied only when org
scope is enabled: for every preference id `p` whose definition has user-scope
flag 1 and every caller without user row `(p, user.Id)` (primary keys respected,
value rows carrying non-empty preference ids as every row the writers store,
reads succeeding): when the org-scope flag is not 1 the result is
`{p, DefaultValue}`, whatever org rows are stored; when the org-scope flag is 1
and the org row `(p, user.OrgId)` is stored with value `vo`, the result is
`{p, vo}`. -/
theorem getUserPreference_org_value_only_when_org_scope (db : DB) (user : User) (p : String)
    (d : Preference) (hwf : db.WellFormed) (hkeys : db.ValueKeysNonEmpty)
    (hreads : db.ReadsSucceed)
    (hd : d ∈ db.preference) (hid : d.Id = p) (hu : d.UserScope = 1)
    (hnoU : ∀ r ∈ db.user_preference, ¬ (r.preference_id = p ∧ r.user_id = user.Id)) :
    (d.OrgScope ≠ 1 → GetUserPreference db user p = Except.ok ⟨p, d.DefaultValue⟩) ∧
    (d.OrgScope = 1 → ∀ vo,
      OrgPreferenceRow.mk p vo user.OrgId ∈ db.org_preference →
      GetUserPreference db user p = Except.ok ⟨p, vo⟩) := by
  subst hid
  have h1 := DB.getUserPreferenceKV_noRows hreads.1 hnoU
  have h3 := DB.getPreference_row colsUserOrgDefault hwf.2.1 hreads.2.2 hd
  constructor
  · intro ho
    rcases DB.getOrgPreferenceKV_cases hreads.2.1 d.Id user.OrgId with h2 | ⟨v2, h2⟩ <;>
    simp [GetUserPreference, h1, h2, h3, colsUserOrgDefault, hu, ho, GetResult.scanInto,
      PreferenceKV.zero]
  · intro ho vo hrow
    have hp : d.Id ≠ "" := hkeys.2 _ hrow
    simp [GetUserPreference, h1, DB.getOrgPreferenceKV_row hwf.2.2.2 hreads.2.1 hrow, h3,
      colsUserOrgDefault, hu, ho, GetResult.scanInto, PreferenceKV.zero, hp]

/-- Claim C16, witness: `p2` (org scope disabled, org row stored) resolves to
its default, `p1` to the org value. -/
theorem getUserPreference_org_value_only_when_org_scope_witness :
    GetUserPreference orgRowsDB sampleUser "p2" = Except.ok ⟨"p2", "d2"⟩ ∧
    GetUserPreference orgRowsDB sampleUser "p1" = Except.ok ⟨"p1", "vo"⟩ :=
  ⟨(getUserPreference_org_value_only_when_org_scope orgRowsDB sampleUser "p2" userOnlyDef
      (by decide) (by decide) (by decide) (by decide) rfl rfl (by decide)).1 (by decide),
   (getUserPreference_org_value_only_when_org_scope orgRowsDB sampleUser "p1" sampleDef
      (by decide) (by decide) (by decide) (by decide) rfl rfl (by decide)).2 rfl "vo"
      (by decide)⟩

/-- Claim C17. `UpdateUserPreference` by user `u` on preference `p`, successful
or not, changes at most the `user_preference` entry keyed `(p, u)`: the rows of
all other keys, the whole `org_preference` table, the definitions and the groups
are unchanged; and for every caller with another user id and every preference
id, and for every caller and every preference id other than `p`, the result of
`GetUserPreference` is the same before and after the call. -/
theorem updateUserPreference_frame (db : DB) (user : User) (req : PreferenceKV) :
    (UpdateUserPreference db user req).2.user_preference.filter
        (fun r => decide (¬ (r.preference_id = req.PreferenceId ∧ r.user_id = user.Id))) =
      db.user_preference.filter
        (fun r => decide (¬ (r.preference_id = req.PreferenceId ∧ r.user_id = user.Id))) ∧
    (UpdateUserPreference db user req).2.org_preference = db.org_preference ∧
    (UpdateUserPreference db user req).2.preference = db.preference ∧
    (UpdateUserPreference db user req).2.preference_group = db.preference_group ∧
    (∀ (other : User) (q : String), (other.Id ≠ user.Id ∨ q ≠ req.PreferenceId) →
      GetUserPreference (UpdateUserPreference db user req).2 other q =
        GetUserPreference db other q) := by
  rcases UpdateUserPreference_db db user req with ⟨-, h⟩ | ⟨-, -, -, h⟩
  · rw [h]
    exact ⟨rfl, rfl, rfl, rfl, fun _ _ _ => rfl⟩
  · rw [h]
    refine ⟨DB.filter_upsertUserRows_other _ _ _ _, rfl, rfl, rfl, ?_⟩
    intro other q hne
    apply GetUserPreference_congr
    · have hne2 : ¬ (q = req.PreferenceId ∧ other.Id = user.Id) := by
        rintro ⟨h1, h2⟩
        rcases hne with h | h
        · exact h h2
        · exact h h1
      simp only [DB.getUserPreferenceKV, DB.get, DB.fails,
        DB.find?_upsertUserRows_other _ _ _ _ _ _ hne2]
    · rfl
    · rfl

/-- Claim C17, witness: after `u1` writes `p1`, the reads of `p1` by `u2` and of
`p2` by `u1` are unchanged. -/
theorem updateUserPreference_frame_witness :
    GetUserPreference (UpdateUserPreference bothRowsDB sampleUser ⟨"p1", "x"⟩).2
        ⟨"u2", "o1"⟩ "p1" = GetUserPreference bothRowsDB ⟨"u2", "o1"⟩ "p1" ∧
    GetUserPreference (UpdateUserPreference bothRowsDB sampleUser ⟨"p1", "x"⟩).2
        sampleUser "p2" = GetUserPreference bothRowsDB sampleUser "p2" :=
  ⟨(updateUserPreference_frame bothRowsDB sampleUser ⟨"p1", "x"⟩).2.2.2.2 ⟨"u2", "o1"⟩ "p1"
      (Or.inl (by decide)),
   (updateUserPreference_frame bothRowsDB sampleUser ⟨"p1", "x"⟩).2.2.2.2 sampleUser "p2"
      (Or.inr (by decide))⟩

/-- Claim C18. For every group list for which some rank on group ids satisfies
`rank g.Id > rank g.ParentGroup` for every group of the list, `buildGroupTree`
returns a tree for every `parentID` and map, at every large enough depth bound.
Without that hypothesis the recursion may have no terminating evaluation: for a
list that contains a group whose `Id` and `ParentGroup` both equal `parentID`,
`buildGroupTree` has no result at any depth bound. -/
theorem buildGroupTree_termination (groups : List PreferenceGroup)
    (m : GoMap (Option (List Preferences))) :
    ((∃ rank : String → Nat, ∀ g ∈ groups, rank g.Id > rank g.ParentGroup) →
      ∀ parentID, ∃ N, ∀ depth, N ≤ depth →
        ∃ tree, buildGroupTree depth groups parentID m = some tree) ∧
    (∀ parentID, (∃ g ∈ groups, g.Id = parentID ∧ g.ParentGroup = parentID) →
      ∀ depth, buildGroupTree depth groups parentID m = none) := by
  constructor
  · intro hacyc parentID
    obtain ⟨N, kids, hk⟩ := buildGroupTree_of_acyclic groups m hacyc
    exact ⟨N, fun depth hd => ⟨kids parentID, (hk depth hd parentID).1⟩⟩
  · rintro parentID ⟨g, hg, hid, hpar⟩ depth
    exact buildGroupTree_self_parent groups m parentID g hg hid hpar depth

/-- Claim C18, witness: the sample groups terminate from the root, and a group
`g1` that is its own parent does not terminate from `g1`. -/
theorem buildGroupTree_termination_witness :
    (∃ N, ∀ depth, N ≤ depth →
      ∃ tree, buildGroupTree depth sampleGroups "" sampleGroupMap = some tree) ∧
    (∀ depth, buildGroupTree depth [⟨"g1", "Group 1", "g1"⟩] "g1" sampleGroupMap = none) :=
  ⟨(buildGroupTree_termination sampleGroups sampleGroupMap).1
      ⟨fun s => if s = "" then 0 else if s = "g1" then 1 else 2, by decide⟩ "",
   (buildGroupTree_termination [⟨"g1", "Group 1", "g1"⟩] sampleGroupMap).2 "g1"
      ⟨⟨"g1", "Group 1", "g1"⟩, by decide, rfl, rfl⟩⟩

/-- Claim C19, the code at a failing input. User `u1` writes the empty string as
value of `p1` (the write succeeds and stores the row), and `GetUserPreference`
returns that stored value. The tree of `GetAllUserPreferences` lists `p1` with
the default value `false`: the listing replaces a resolved value equal to the
empty string by the default (model.go, lines 550-552). -/
theorem getAllUserPreferences_disagrees_on_empty_value :
    (UpdateUserPreference listingDB sampleUser ⟨"p1", ""⟩).1 = Except.ok ⟨"p1", ""⟩ ∧
    UserPreferenceRow.mk "p1" "" sampleUser.Id ∈ emptyUserValueDB.user_preference ∧
    GetUserPreference emptyUserValueDB sampleUser "p1" = Except.ok ⟨"p1", ""⟩ ∧
    ∀ depth, 2 ≤ depth →
      GetAllUserPreferences depth emptyUserValueDB sampleUser =
        some (Except.ok (some [AllPreferenceResponse.mk "g1" "Group 1"
          (some [{ toPreference := sampleDef, Value := "false" }]) []])) := by
  refine ⟨by decide, by decide, by decide, ?_⟩
  intro depth hd
  rw [GetAllUserPreferences_tree_of_definition emptyUserValueDB sampleUser (by decide)
    (by decide) (by decide) (by decide) ⟨sampleDef, by decide, by decide⟩ depth]
  rw [buildGroupTree_mono emptyUserValueDB.preference_group
    (userListingMap emptyUserValueDB sampleUser) hd "" _ rfl]
  rfl

/-- Claim C20. For every database, caller, preference id `p` and value `v`, the
empty string included, with the reads of the value tables succeeding: when
`UpdateUserPreference` of `{p, v}` succeeds, `GetUserPreference` for `p` on the
database it leaves returns `{p, v}`; when `UpdateOrgPreference` of `{p, v}`
succeeds, `GetOrgPreference` for `p` on the database it leaves returns `{p, v}`. -/
theorem read_after_write (db : DB) (user : User) (p v : String)
    (hU : db.fails Stmt.selectUserPreference = false)
    (hO : db.fails Stmt.selectOrgPreference = false) :
    ((∃ kv, (UpdateUserPreference db user ⟨p, v⟩).1 = Except.ok kv) →
      GetUserPreference (UpdateUserPreference db user ⟨p, v⟩).2 user p = Except.ok ⟨p, v⟩) ∧
    ((∃ kv, (UpdateOrgPreference db user ⟨p, v⟩).1 = Except.ok kv) →
      GetOrgPreference (UpdateOrgPreference db user ⟨p, v⟩).2 user p = Except.ok ⟨p, v⟩) := by
  constructor
  · rintro ⟨kv, hok⟩
    rcases UpdateUserPreference_db db user ⟨p, v⟩ with ⟨⟨e, he⟩, -⟩ | ⟨-, hp, ⟨d, -, -, hu, hall⟩, h⟩
    · rw [he] at hok; cases hok
    · simp only at hp h hall
      rw [h]
      have h1 : DB.getUserPreferenceKV { db with
          user_preference := (DB.upsertUserRows db.user_preference p v user.Id) } p user.Id =
          GetResult.row ⟨p, v⟩ := by
        have hU2 : DB.fails { db with
            user_preference := (DB.upsertUserRows db.user_preference p v user.Id) }
            Stmt.selectUserPreference = false := hU
        simp only [DB.getUserPreferenceKV, DB.get, hU2, DB.find?_upsertUserRows_self]
        simp
      have h3 : DB.getPreference { db with
          user_preference := (DB.upsertUserRows db.user_preference p v user.Id) }
          colsUserOrgDefault p = GetResult.row (colsUserOrgDefault d) :=
        hall colsUserOrgDefault
      rcases @DB.getOrgPreferenceKV_cases { db with
          user_preference := (DB.upsertUserRows db.user_preference p v user.Id) }
          hO p user.OrgId with h2 | ⟨v2, h2⟩ <;>
      simp [GetUserPreference, h1, h2, h3, colsUserOrgDefault, hu, GetResult.scanInto, hp,
        PreferenceKV.zero]
      all_goals first | rfl | (split_ifs <;> rfl)
  · rintro ⟨kv, hok⟩
    rcases UpdateOrgPreference_db db user ⟨p, v⟩ with
      ⟨⟨e, he⟩, -⟩ | ⟨-, hp, -, ⟨d, -, -, hu, hall⟩, h⟩
    · rw [he] at hok; cases hok
    · simp only at hp h hall
      rw [h]
      have h1 : DB.getOrgPreferenceKV { db with
          org_preference := (DB.upsertOrgRows db.org_preference p v user.OrgId) } p user.OrgId =
          GetResult.row ⟨p, v⟩ := by
        have hO2 : DB.fails { db with
            org_preference := (DB.upsertOrgRows db.org_preference p v user.OrgId) }
            Stmt.selectOrgPreference = false := hO
        simp only [DB.getOrgPreferenceKV, DB.get, hO2, DB.find?_upsertOrgRows_self]
        simp
      have h3 : DB.getPreference { db with
          org_preference := (DB.upsertOrgRows db.org_preference p v user.OrgId) }
          colsOrgDefault p = GetResult.row (colsOrgDefault d) :=
        hall colsOrgDefault
      simp [GetOrgPreference, h1, h3, colsOrgDefault, hu, GetResult.scanInto, hp]

/-- Claim C20, witness: the empty string written to `p1` over stored values, in
both scopes. -/
theorem read_after_write_witness :
    GetUserPreference (UpdateUserPreference bothRowsDB sampleUser ⟨"p1", ""⟩).2 sampleUser "p1" =
      Except.ok ⟨"p1", ""⟩ ∧
    GetOrgPreference (UpdateOrgPreference bothRowsDB sampleUser ⟨"p1", ""⟩).2 sampleUser "p1" =
      Except.ok ⟨"p1", ""⟩ :=
  ⟨(read_after_write bothRowsDB sampleUser "p1" "" (by decide) (by decide)).1
      ⟨⟨"p1", ""⟩, by decide⟩,
   (read_after_write bothRowsDB sampleUser "p1" "" (by decide) (by decide)).2
      ⟨⟨"p1", ""⟩, by decide⟩⟩

end PrefModel
